import Mathlib

/-!
Verification of the ASCII battle-game server (`server.py`).

The server holds a 5×5 character grid, a fixed array of four player slots,
and a client counter, all mutated under one lock by per-connection handler
threads.  This file gives a shallow embedding of that state and of the
server's operations (`initGameState`, `refreshPlayerPositions`,
`buildStateString`, `broadcastState`, `handleCommand`, and the join and
cleanup phases of `clientHandler`), and proves the specified properties
about them.

Sockets are modelled as `Option Bool` per slot: `none` is a freed slot
(`None` in the registry), `some true` a live channel, `some false` a
channel whose sends fail with a socket error.  Every successful `sendall`
or `send` is recorded in a global delivery trace as a `(recipient, text)`
pair, so delivery claims become statements about the trace.
-/

namespace BattleServer

def MAX_CLIENTS : Nat := 4

def GRID_ROWS : Nat := 5

def GRID_COLS : Nat := 5

/-- Python list indexing: a nonnegative index in range is used directly, a
negative index `i` with `-n ≤ i` wraps to `n + i`, anything else raises
`IndexError` (modelled as `none`; the server never indexes out of range on
the paths verified here). -/
def pyIdx (n : Nat) (i : Int) : Option (Fin n) :=
  if h : 0 ≤ i ∧ i < (n : Int) then some ⟨i.toNat, by omega⟩
  else if h2 : -(n : Int) ≤ i ∧ i < 0 then some ⟨(i + n).toNat, by omega⟩
  else none

/-- The 5×5 grid of cell characters. -/
abbrev Grid := Fin 5 → Fin 5 → Char

/-- Read `grid[r][c]` with Python indexing semantics ('?' stands for the
unreachable `IndexError` case). -/
def gridGet (g : Grid) (r c : Int) : Char :=
  match pyIdx 5 r, pyIdx 5 c with
  | some a, some b => g a b
  | _, _ => '?'

/-- Write `grid[r][c] = ch` with Python indexing semantics (an
out-of-range write would raise in Python; it is modelled as a no-op and
never exercised). -/
def gridSet (g : Grid) (r c : Int) (ch : Char) : Grid :=
  match pyIdx 5 r, pyIdx 5 c with
  | some a, some b => fun a2 b2 => if a2 = a ∧ b2 = b then ch else g a2 b2
  | _, _ => g

/-- One entry of `g_gameState['players']`. -/
structure Player where
  x : Int
  y : Int
  hp : Int
  active : Bool
deriving Repr, DecidableEq

/-- `g_gameState`: grid, the four player slots, and `clientCount`. -/
@[ext]
structure GameState where
  grid : Grid
  players : Fin 4 → Player
  clientCount : Int

/-- `chr(ord('A') + i)`: the marker letter of slot `i`. -/
def markerChar (i : Fin 4) : Char := Char.ofNat (65 + i.val)

/-- `initGameState`: all-dot grid, then `grid[2][2]='#'`, `grid[1][3]='#'`,
then the pickups `grid[3][1]='+'`, `grid[0][4]='+'`, `grid[1][3]='+'`
(overwriting the second obstacle), `grid[2][3]='+'`. -/
def initGrid : Grid :=
  gridSet (gridSet (gridSet (gridSet (gridSet (gridSet
    (fun _ _ => '.') 2 2 '#') 1 3 '#') 3 1 '+') 0 4 '+') 1 3 '+') 2 3 '+'

/-- `initGameState`: the initial grid, four inactive players at `(-1,-1)`
with 100 hp, and `clientCount = 0`. -/
def initGameState : GameState :=
  { grid := initGrid
    players := fun _ => { x := -1, y := -1, hp := 100, active := false }
    clientCount := 0 }

/-- First loop of `refreshPlayerPositions`: every cell that is neither
`'#'` nor `'+'` becomes `'.'`. -/
def clearPass (g : Grid) : Grid :=
  fun r c => if g r c ≠ '#' ∧ g r c ≠ '+' then '.' else g r c

/-- One iteration of the placement loop of `refreshPlayerPositions`:
if player `i` is active with positive hp, write its marker at its
coordinates. -/
def placeOne (ps : Fin 4 → Player) (i : Fin 4) (g : Grid) : Grid :=
  if (ps i).active = true ∧ (ps i).hp > 0 then
    gridSet g (ps i).x (ps i).y (markerChar i)
  else g

/-- `refreshPlayerPositions`: clear all non-terrain cells, then place the
markers of players 0, 1, 2, 3 in that order. -/
def refreshPlayerPositions (s : GameState) : GameState :=
  { s with grid :=
      placeOne s.players 3 (placeOne s.players 2 (placeOne s.players 1
        (placeOne s.players 0 (clearPass s.grid)))) }

/-- One grid row as rendered by `buildStateString`. -/
def rowStr (g : Grid) (r : Fin 5) : String :=
  String.mk ((List.finRange 5).map (fun c => g r c)) ++ "\n"

/-- One roster line of `buildStateString`. -/
def playerLine (i : Fin 4) (p : Player) : String :=
  "  Player " ++ toString i.val ++ ": HP=" ++ toString p.hp ++
    " Pos = (" ++ toString p.x ++ "," ++ toString p.y ++ ")\n"

/-- `buildStateString`: the `STATE` header, the five grid rows, and a
roster line for each active player in slot order. -/
def buildStateString (s : GameState) : String :=
  "STATE\n" ++ String.join ((List.finRange 5).map (rowStr s.grid)) ++
    "Players:\n" ++ String.join ((List.finRange 4).filterMap (fun i =>
      if (s.players i).active = true then some (playerLine i (s.players i)) else none))

/-- A delivery channel: `true` iff sends on it succeed. -/
abbrev Channel := Bool

/-- The whole observable server state: game state, `g_clientSockets`
(`none` = freed slot), and the log of successfully delivered messages. -/
@[ext]
structure World where
  game : GameState
  socks : Fin 4 → Option Channel
  trace : List (Fin 4 × String)

/-- The loop body of `broadcastState` over the listed slots: skip freed
slots, log the message on a live channel, and on a send failure close the
socket and free its slot (`g_clientSockets.index(sock)` resolves to the
iteration index because each slot holds a distinct socket object). -/
def bcastLoop (msg : String) : List (Fin 4) → World → World
  | [], w => w
  | i :: rest, w =>
    match w.socks i with
    | none => bcastLoop msg rest w
    | some true => bcastLoop msg rest { w with trace := w.trace ++ [(i, msg)] }
    | some false => bcastLoop msg rest { w with socks := Function.update w.socks i none }

/-- `broadcastState`: render the state once and deliver the same bytes to
every connected client in slot order. -/
def broadcastState (w : World) : World :=
  bcastLoop (buildStateString w.game) [0, 1, 2, 3] w

/-- Containment of one character list in another, as Python's
`needle in haystack` substring test. -/
def listContains (needle : List Char) : List Char → Bool
  | [] => needle.isEmpty
  | c :: rest => needle.isPrefixOf (c :: rest) || listContains needle rest

/-- Python `needle in cmd` on strings. -/
def pyContains (cmd needle : String) : Bool :=
  listContains needle.toList cmd.toList

/-- Python `cmd.startswith(pre)`. -/
def pyStartswith (cmd pre : String) : Bool :=
  pre.toList.isPrefixOf cmd.toList

/-- Python `s.split(sep)` with an explicit one-character separator: split
at every occurrence, keeping empty pieces (so `''` gives `['']` and
consecutive separators give empty words). -/
def pySplitChar (sep : Char) : List Char → List (List Char)
  | [] => [[]]
  | c :: rest =>
    if c = sep then [] :: pySplitChar sep rest
    else
      match pySplitChar sep rest with
      | [] => [[c]]
      | word :: words => (c :: word) :: words

/-- Python `cmd.split(' ')`. -/
def pySplit (cmd : String) : List String :=
  (pySplitChar ' ' cmd.toList).map String.mk

/-- The four movement directions. -/
inductive Dir where
  | up
  | down
  | left
  | right
deriving Repr, DecidableEq

/-- The direction keyword of the wire protocol. -/
def dirTok : Dir → String
  | .up => "UP"
  | .down => "DOWN"
  | .left => "LEFT"
  | .right => "RIGHT"

/-- The command selected by `handleCommand`'s dispatch chain.  `say`
carries `cmd.split(' ')[1:]`, the word list after the keyword. -/
inductive ParsedCmd where
  | move (d : Dir)
  | jump (d : Dir)
  | attack
  | quit
  | say (ws : List String)
  | invalid
deriving Repr, DecidableEq

/-- The dispatch chain of `handleCommand` as written: prefix tests on
`MOVE`, `ATTACK`, `QUIT`, `JUMP`, `SAY` in that order, with the direction
found by substring tests `UP`, `DOWN`, `LEFT`, `RIGHT` in that order
anywhere in the command; unknown directions and unknown keywords both
reply `Invalid command`. -/
def dispatchSub (cmd : String) : ParsedCmd :=
  if pyStartswith cmd "MOVE" then
    if pyContains cmd "UP" then .move .up
    else if pyContains cmd "DOWN" then .move .down
    else if pyContains cmd "LEFT" then .move .left
    else if pyContains cmd "RIGHT" then .move .right
    else .invalid
  else if pyStartswith cmd "ATTACK" then .attack
  else if pyStartswith cmd "QUIT" then .quit
  else if pyStartswith cmd "JUMP" then
    if pyContains cmd "UP" then .jump .up
    else if pyContains cmd "DOWN" then .jump .down
    else if pyContains cmd "LEFT" then .jump .left
    else if pyContains cmd "RIGHT" then .jump .right
    else .invalid
  else if pyStartswith cmd "SAY" then .say ((pySplit cmd).drop 1)
  else .invalid

/-- Parse a direction token exactly. -/
def parseDirTok (s : String) : Option Dir :=
  if s = "UP" then some .up
  else if s = "DOWN" then some .down
  else if s = "LEFT" then some .left
  else if s = "RIGHT" then some .right
  else none

/-- Modelled from the spec: the strict-tokenization dispatcher that §9 of
the design proposes in place of substring matching — the first
whitespace-delimited word selects the command (case-sensitively) and the
second word must be exactly the direction token. -/
def dispatchTok (cmd : String) : ParsedCmd :=
  match pySplit cmd with
  | [] => .invalid
  | kw :: rest =>
    if kw = "MOVE" then
      match rest with
      | d :: _ => match parseDirTok d with
        | some dd => .move dd
        | none => .invalid
      | [] => .invalid
    else if kw = "ATTACK" then .attack
    else if kw = "QUIT" then .quit
    else if kw = "JUMP" then
      match rest with
      | d :: _ => match parseDirTok d with
        | some dd => .jump dd
        | none => .invalid
      | [] => .invalid
    else if kw = "SAY" then .say rest
    else .invalid

/-- The successful-move mutation shared by every MOVE and JUMP branch of
`handleCommand`: clear the source cell, read the destination for a
pickup, bump hp if one was there, write the mover's marker, and record
the new coordinates.  In the source each branch updates only the
coordinate that changed; the other one is rewritten with its old value
here, which is the same assignment. -/
def mjMut (playerIndex : Fin 4) (nx ny : Int) (g : GameState) : GameState :=
  let p := g.players playerIndex
  let g1 := gridSet g.grid p.x p.y '.'
  let hp1 := if gridGet g1 nx ny = '+' then p.hp + 5 else p.hp
  let g2 := gridSet g1 nx ny (markerChar playerIndex)
  { grid := g2
    players := Function.update g.players playerIndex { p with x := nx, y := ny, hp := hp1 }
    clientCount := g.clientCount }

/-- One MOVE or JUMP branch: apply `mjMut` when the branch's legality
test `cond` holds, then (in either case) refresh the grid and broadcast
the new state. -/
def tryStep (playerIndex : Fin 4) (nx ny : Int) (cond : Bool) (w : World) : World :=
  let w1 := if cond then { w with game := mjMut playerIndex nx ny w.game } else w
  broadcastState { w1 with game := refreshPlayerPositions w1.game }

/-- The four `MOVE` branches: a one-cell offset, the branch's own bounds
test (`UP` and `LEFT` check both bounds, `DOWN` and `RIGHT` only the
upper one), and the test that the destination cell is `'.'` or `'+'`. -/
def moveAction (playerIndex : Fin 4) (d : Dir) (w : World) : World :=
  let p := w.game.players playerIndex
  match d with
  | .up =>
    let nx := p.x - 1
    let ny := p.y
    tryStep playerIndex nx ny
      (decide (0 ≤ nx) && decide (nx < 5) &&
        (gridGet w.game.grid nx ny == '.' || gridGet w.game.grid nx ny == '+')) w
  | .down =>
    let nx := p.x + 1
    let ny := p.y
    tryStep playerIndex nx ny
      (decide (nx < 5) &&
        (gridGet w.game.grid nx ny == '.' || gridGet w.game.grid nx ny == '+')) w
  | .left =>
    let nx := p.x
    let ny := p.y - 1
    tryStep playerIndex nx ny
      (decide (0 ≤ ny) && decide (ny < 5) &&
        (gridGet w.game.grid nx ny == '.' || gridGet w.game.grid nx ny == '+')) w
  | .right =>
    let nx := p.x
    let ny := p.y + 1
    tryStep playerIndex nx ny
      (decide (ny < 5) &&
        (gridGet w.game.grid nx ny == '.' || gridGet w.game.grid nx ny == '+')) w

/-- The four `JUMP` branches: as `moveAction` with a two-cell offset. -/
def jumpAction (playerIndex : Fin 4) (d : Dir) (w : World) : World :=
  let p := w.game.players playerIndex
  match d with
  | .up =>
    let nx := p.x - 2
    let ny := p.y
    tryStep playerIndex nx ny
      (decide (0 ≤ nx) && decide (nx < 5) &&
        (gridGet w.game.grid nx ny == '.' || gridGet w.game.grid nx ny == '+')) w
  | .down =>
    let nx := p.x + 2
    let ny := p.y
    tryStep playerIndex nx ny
      (decide (nx < 5) &&
        (gridGet w.game.grid nx ny == '.' || gridGet w.game.grid nx ny == '+')) w
  | .left =>
    let nx := p.x
    let ny := p.y - 2
    tryStep playerIndex nx ny
      (decide (0 ≤ ny) && decide (ny < 5) &&
        (gridGet w.game.grid nx ny == '.' || gridGet w.game.grid nx ny == '+')) w
  | .right =>
    let nx := p.x
    let ny := p.y + 2
    tryStep playerIndex nx ny
      (decide (ny < 5) &&
        (gridGet w.game.grid nx ny == '.' || gridGet w.game.grid nx ny == '+')) w

/-- Orthogonal adjacency as tested by the elif chain of the ATTACK
branch. -/
def adjD (px py ogx ogy : Int) : Prop :=
  (px = ogx - 1 ∧ py = ogy) ∨ (px = ogx + 1 ∧ py = ogy) ∨
    (px = ogx ∧ py = ogy - 1) ∨ (px = ogx ∧ py = ogy + 1)

instance (px py ogx ogy : Int) : Decidable (adjD px py ogx ogy) := by
  unfold adjD; infer_instance

/-- The death notice `f"You were killed by Player {chr(ord('A') + playerIndex)}"`. -/
def deathMsg (attacker : Fin 4) : String :=
  "You were killed by Player " ++ String.mk [markerChar attacker]

/-- The hp the ATTACK loop's visit leaves in a slot: 10 less when the
slot holds a live player adjacent to the attacker. -/
def atkHp (p : Player) (ogx ogy : Int) : Int :=
  if p.active = true ∧ p.hp > 0 ∧ adjD p.x p.y ogx ogy then p.hp - 10 else p.hp

/-- The visit eliminates the slot: it held a live player and its hp is
now non-positive. -/
def atkDead (p : Player) (ogx ogy : Int) : Prop :=
  p.active = true ∧ p.hp > 0 ∧ atkHp p ogx ogy ≤ 0

instance (p : Player) (ogx ogy : Int) : Decidable (atkDead p ogx ogy) := by
  unfold atkDead; infer_instance

/-- The player record the visit leaves in the slot. -/
def atkPlayer (p : Player) (ogx ogy : Int) : Player :=
  if atkDead p ogx ogy then { p with hp := atkHp p ogx ogy, active := false }
  else { p with hp := atkHp p ogx ogy }

/-- How one call into `handleCommand` ends, seen from the command loop of
`clientHandler`: a normal return; a `socket.error` escaping the branch,
which that loop catches before running the cleanup block; or another
exception — in this server an `AttributeError` from calling a socket
method on a registry slot already holding `None` — which nothing catches,
so the handler thread dies with no cleanup at all.  Each constructor
carries the state the server is left in. -/
inductive Outcome where
  | ok (w : World)
  | errSock (w : World)
  | died (w : World)

/-- The state an outcome leaves behind. -/
def Outcome.world : Outcome → World
  | .ok w => w
  | .errSock w => w
  | .died w => w

/-- The constructor of an outcome, on its own. -/
inductive OutTag where
  | ok
  | errSock
  | died
deriving DecidableEq

/-- Which constructor an outcome was built with. -/
def Outcome.tag : Outcome → OutTag
  | .ok _ => .ok
  | .errSock _ => .errSock
  | .died _ => .died

/-- One iteration of the ATTACK loop at slot `i`, on the path where it
returns: if that player is active with positive hp, subtract 10 hp when
adjacent to the attacker, and if the hp is now non-positive, send the
death notice — a `socket.error` is swallowed, so a broken channel still
lets the elimination proceed — deactivate the slot, close and free the
socket, and decrement `clientCount`.  The visit of a dying player whose
socket entry is already `None` does not return; `attackVisitE` below
carries that case. -/
def attackVisit (attacker : Fin 4) (ogx ogy : Int) (i : Fin 4) (w : World) : World :=
  let p := w.game.players i
  if p.active = true ∧ p.hp > 0 then
    let hp1 :=
      if p.x = ogx - 1 ∧ p.y = ogy then p.hp - 10
      else if p.x = ogx + 1 ∧ p.y = ogy then p.hp - 10
      else if p.x = ogx ∧ p.y = ogy - 1 then p.hp - 10
      else if p.x = ogx ∧ p.y = ogy + 1 then p.hp - 10
      else p.hp
    let w1 := { w with game :=
      { w.game with players := Function.update w.game.players i { p with hp := hp1 } } }
    if hp1 ≤ 0 then
      let w2 :=
        match w1.socks i with
        | some true => { w1 with trace := w1.trace ++ [(i, deathMsg attacker)] }
        | _ => w1
      { w2 with
          game :=
            { w2.game with
                players := Function.update w2.game.players i
                  { (w2.game.players i) with active := false }
                clientCount := w2.game.clientCount - 1 }
          socks := Function.update w2.socks i none }
    else w1
  else w

/-- The `for i, player in enumerate(players)` loop of the ATTACK branch,
over the listed slots, on the visits that return normally. -/
def attackLoop (attacker : Fin 4) (ogx ogy : Int) : List (Fin 4) → World → World
  | [], w => w
  | i :: rest, w => attackLoop attacker ogx ogy rest (attackVisit attacker ogx ogy i w)

/-- One iteration of the ATTACK loop with its failure mode made explicit:
when the visited slot's player dies of the hit but the slot's socket
entry is already `None`, the death-notice `sendall` raises
`AttributeError`, which the surrounding `except socket.error` does not
match — the loop aborts then and there with only the hp subtraction
done, and nothing later in `handleCommand` runs. -/
def attackVisitE (attacker : Fin 4) (ogx ogy : Int) (i : Fin 4) (w : World) : Outcome :=
  let p := w.game.players i
  let php : Player := { p with hp := atkHp p ogx ogy }
  if atkDead p ogx ogy ∧ w.socks i = none then
    .died { w with game := { w.game with players := Function.update w.game.players i php } }
  else .ok (attackVisit attacker ogx ogy i w)

/-- The ATTACK loop with the abort propagated: a visit that raises stops
the remaining visits. -/
def attackLoopE (attacker : Fin 4) (ogx ogy : Int) : List (Fin 4) → World → Outcome
  | [], w => .ok w
  | i :: rest, w =>
    match attackVisitE attacker ogx ogy i w with
    | .ok w1 => attackLoopE attacker ogx ogy rest w1
    | r => r

/-- The ATTACK branch: read the attacker's position and visit every slot
in order; if every visit returns, refresh the grid and broadcast, and if
one raises, the exception escapes with the loop's partial state. -/
def attackActionE (playerIndex : Fin 4) (w : World) : Outcome :=
  let ogx := (w.game.players playerIndex).x
  let ogy := (w.game.players playerIndex).y
  match attackLoopE playerIndex ogx ogy [0, 1, 2, 3] w with
  | .ok w4 => .ok (broadcastState { w4 with game := refreshPlayerPositions w4.game })
  | r => r

/-- The state the ATTACK branch leaves behind, whichever way it ends. -/
def attackAction (playerIndex : Fin 4) (w : World) : World :=
  (attackActionE playerIndex w).world

/-- The departure message `f"Player {playerIndex} has quit the game."`. -/
def quitMsg (playerIndex : Fin 4) : String :=
  "Player " ++ toString playerIndex.val ++ " has quit the game."

/-- The notification loop of the QUIT branch: `sendall` to every
connected socket (the quitter included); the whole loop sits in one
`try`, so the first send failure abandons the remaining sends (and closes
nothing). -/
def quitLoop (msg : String) : List (Fin 4) → World → World
  | [], w => w
  | i :: rest, w =>
    match w.socks i with
    | none => quitLoop msg rest w
    | some true => quitLoop msg rest { w with trace := w.trace ++ [(i, msg)] }
    | some false => w

/-- The QUIT branch: deactivate the quitter, move it to `(-1,-1)`, clear
its old cell, and if its socket is still present, notify everyone, close
and free the socket, and decrement `clientCount`; then refresh and
broadcast. -/
def quitAction (playerIndex : Fin 4) (w : World) : World :=
  let p := w.game.players playerIndex
  let ogx := p.x
  let ogy := p.y
  let w1 := { w with game :=
    { w.game with
        players := Function.update w.game.players playerIndex
          { p with active := false, x := -1, y := -1 }
        grid := gridSet w.game.grid ogx ogy '.' } }
  let w2 :=
    match w1.socks playerIndex with
    | none => w1
    | some _ =>
      let w15 := quitLoop (quitMsg playerIndex) [0, 1, 2, 3] w1
      { w15 with
          socks := Function.update w15.socks playerIndex none
          game := { w15.game with clientCount := w15.game.clientCount - 1 } }
  broadcastState { w2 with game := refreshPlayerPositions w2.game }

/-- The chat text sent by the SAY branch:
`'SAY Player' + str(playerIndex) + ': '` followed by the words of the
command after the keyword, concatenated with no separator. -/
def sayMsg (playerIndex : Fin 4) (ws : List String) : String :=
  "SAY Player" ++ toString playerIndex.val ++ ": " ++ String.join ws

/-- The delivery loop of the SAY branch: send to every connected socket
except the sender's; a send failure closes that socket and frees its slot
and the loop continues. -/
def sayLoop (sender : Fin 4) (msg : String) : List (Fin 4) → World → World
  | [], w => w
  | i :: rest, w =>
    if i = sender then sayLoop sender msg rest w
    else
      match w.socks i with
      | none => sayLoop sender msg rest w
      | some true => sayLoop sender msg rest { w with trace := w.trace ++ [(i, msg)] }
      | some false => sayLoop sender msg rest { w with socks := Function.update w.socks i none }

/-- The SAY branch: deliver the chat line to the other clients, then
refresh and broadcast. -/
def sayAction (playerIndex : Fin 4) (ws : List String) (w : World) : World :=
  let w1 := sayLoop playerIndex (sayMsg playerIndex ws) [0, 1, 2, 3] w
  broadcastState { w1 with game := refreshPlayerPositions w1.game }

/-- The `Invalid command` reply: a bare un-guarded `send` to the issuing
client, no refresh and no broadcast.  On a live channel the reply is
delivered; on a broken socket the `send` raises `socket.error`, which
escapes the branch and is caught by the command loop of `clientHandler`
(the cleanup block then runs); on a registry slot already holding `None`
it raises `AttributeError`, which nothing catches, and the thread dies
with no cleanup. -/
def invalidActionE (playerIndex : Fin 4) (w : World) : Outcome :=
  match w.socks playerIndex with
  | some true => .ok { w with trace := w.trace ++ [(playerIndex, "Invalid command")] }
  | some false => .errSock w
  | none => .died w

/-- The state the `Invalid command` reply leaves behind. -/
def invalidAction (playerIndex : Fin 4) (w : World) : World :=
  (invalidActionE playerIndex w).world

/-- Execute one dispatched command, keeping how it ends: the MOVE, JUMP,
QUIT and SAY branches guard every send they perform and always return,
while the ATTACK branch and the `Invalid command` reply can let an
exception escape. -/
def applyCmdE (pc : ParsedCmd) (playerIndex : Fin 4) (w : World) : Outcome :=
  match pc with
  | .move d => .ok (moveAction playerIndex d w)
  | .jump d => .ok (jumpAction playerIndex d w)
  | .attack => attackActionE playerIndex w
  | .quit => .ok (quitAction playerIndex w)
  | .say ws => .ok (sayAction playerIndex ws w)
  | .invalid => invalidActionE playerIndex w

/-- The state one dispatched command leaves behind. -/
def applyCmd (pc : ParsedCmd) (playerIndex : Fin 4) (w : World) : World :=
  (applyCmdE pc playerIndex w).world

/-- `handleCommand`: dispatch the command string through the substring
chain and run the selected branch; the state it leaves behind, whichever
way the branch ends. -/
def handleCommand (playerIndex : Fin 4) (cmd : String) (w : World) : World :=
  applyCmd (dispatchSub cmd) playerIndex w

/-- The strict-tokenization variant of `handleCommand` proposed by the
design notes: the same branch bodies behind `dispatchTok`. -/
def handleCommandStrict (playerIndex : Fin 4) (cmd : String) (w : World) : World :=
  applyCmd (dispatchTok cmd) playerIndex w

/-- The join phase of `clientHandler`: set the slot's player to the start
cell `(playerIndex, 0)` with 100 hp and the active flag, refresh the
grid, send `READY`, and broadcast.  The `READY` send is bare: if the
fresh channel is already broken it raises `socket.error`, and if the
registry slot has been emptied again it raises `AttributeError`; the join
block catches neither, so in both cases the handler thread dies right
there — after the player was activated and placed, but before the
broadcast. -/
def clientJoin (i : Fin 4) (w : World) : World :=
  let newp : Player := { x := (i.val : Int), y := 0, hp := 100, active := true }
  let w1 := { w with game :=
    { w.game with players := Function.update w.game.players i newp } }
  let w2 := { w1 with game := refreshPlayerPositions w1.game }
  match w2.socks i with
  | some true => broadcastState { w2 with trace := w2.trace ++ [(i, "READY\n")] }
  | _ => w2

/-- The cleanup block of `clientHandler`, run when the command loop ends
on a zero-length read or a transport error: deactivate the slot, clear
the player's grid cell, free the registry slot, refresh and broadcast.
`clientCount` is not touched on this path. -/
def clientCleanup (i : Fin 4) (w : World) : World :=
  let deadp : Player := { (w.game.players i) with active := false }
  let w1 := { w with game :=
    { w.game with players := Function.update w.game.players i deadp } }
  let p := w1.game.players i
  let w2 := { w1 with
      game := { w1.game with grid := gridSet w1.game.grid p.x p.y '.' }
      socks := Function.update w1.socks i none }
  broadcastState { w2 with game := refreshPlayerPositions w2.game }

/-- One round of `clientHandler`'s command loop on a received line: a
normal return continues the loop; an escaped `socket.error` is caught by
the loop's `except` clause and the cleanup block runs; any other
exception ends the thread where it stands, with no cleanup. -/
def runCommand (i : Fin 4) (cmd : String) (w : World) : World :=
  match applyCmdE (dispatchSub cmd) i w with
  | .ok w1 => w1
  | .errSock w1 => clientCleanup i w1
  | .died w1 => w1

/-! ### Basic facts about grid indexing -/

theorem fin_int_val {n : Nat} (a : Fin n) : (a : Int) = (a.val : Int) := rfl

theorem pyIdx_eq_some_of_nonneg {n : Nat} {i : Int} (h0 : 0 ≤ i) {a : Fin n} :
    pyIdx n i = some a ↔ (a : Int) = i := by
  unfold pyIdx
  rw [fin_int_val]
  by_cases h : 0 ≤ i ∧ i < (n : Int)
  · simp only [dif_pos h, Option.some.injEq]
    constructor
    · intro hv
      have hval : i.toNat = a.val := congrArg Fin.val hv
      omega
    · intro hv
      apply Fin.ext
      show i.toNat = a.val
      omega
  · have h2 : ¬(-(n : Int) ≤ i ∧ i < 0) := by omega
    simp only [dif_neg h, dif_neg h2]
    constructor
    · intro hc; cases hc
    · intro hv
      exfalso
      have := a.isLt
      omega

theorem pyIdx_coe {n : Nat} (a : Fin n) : pyIdx n (a : Int) = some a := by
  rw [pyIdx_eq_some_of_nonneg (by omega)]

theorem gridGet_fin (g : Grid) (a : Fin 5) (b : Fin 5) :
    gridGet g (a : Int) (b : Int) = g a b := by
  unfold gridGet
  rw [pyIdx_coe, pyIdx_coe]

theorem gridGet_of_bounds (g : Grid) {x y : Int} (hx0 : 0 ≤ x) (hx5 : x < 5)
    (hy0 : 0 ≤ y) (hy5 : y < 5) :
    gridGet g x y = g ⟨x.toNat, by omega⟩ ⟨y.toNat, by omega⟩ := by
  have hx : pyIdx 5 x = some ⟨x.toNat, by omega⟩ := by
    rw [pyIdx_eq_some_of_nonneg hx0]; simp; omega
  have hy : pyIdx 5 y = some ⟨y.toNat, by omega⟩ := by
    rw [pyIdx_eq_some_of_nonneg hy0]; simp; omega
  unfold gridGet
  rw [hx, hy]

theorem gridSet_apply (g : Grid) (r c : Int) (ch : Char) (a b : Fin 5) :
    gridSet g r c ch a b =
      if pyIdx 5 r = some a ∧ pyIdx 5 c = some b then ch else g a b := by
  unfold gridSet
  cases hr : pyIdx 5 r with
  | none => simp [hr]
  | some ar =>
    cases hc : pyIdx 5 c with
    | none => simp [hc]
    | some ac =>
      by_cases h : a = ar ∧ b = ac
      · obtain ⟨rfl, rfl⟩ := h
        simp
      · have h2 : ¬(some ar = some a ∧ some ac = some b) := by
          intro hcon
          exact h ⟨(Option.some.injEq _ _ ▸ hcon.1).symm, (Option.some.injEq _ _ ▸ hcon.2).symm⟩
        simp only [if_pos, if_neg h, if_neg h2]

/-! ### Marker characters -/

theorem markerChar_ne_dot (i : Fin 4) : markerChar i ≠ '.' := by fin_cases i <;> decide

theorem markerChar_ne_plus (i : Fin 4) : markerChar i ≠ '+' := by fin_cases i <;> decide

theorem markerChar_ne_hash (i : Fin 4) : markerChar i ≠ '#' := by fin_cases i <;> decide

theorem markerChar_inj {i j : Fin 4} (h : markerChar i = markerChar j) : i = j := by
  fin_cases i <;> fin_cases j <;> first | rfl | (exfalso; exact absurd h (by decide))

/-! ### The state invariant

In every state the server reaches, each active player has positive hp,
in-bounds coordinates, and its marker at its cell; each marker on the
grid belongs to the active player standing there; and every cell is
empty, a pickup, the obstacle, or a marker. -/

def inB (x y : Int) : Prop := 0 ≤ x ∧ x < 5 ∧ 0 ≤ y ∧ y < 5

instance (x y : Int) : Decidable (inB x y) := by unfold inB; infer_instance

def Inv (s : GameState) : Prop :=
  (∀ i : Fin 4, (s.players i).active = true →
    inB (s.players i).x (s.players i).y ∧ (s.players i).hp > 0 ∧
      gridGet s.grid (s.players i).x (s.players i).y = markerChar i) ∧
  (∀ a b : Fin 5, ∀ i : Fin 4, s.grid a b = markerChar i →
    (s.players i).active = true ∧ (s.players i).x = (a : Int) ∧ (s.players i).y = (b : Int)) ∧
  (∀ a b : Fin 5, s.grid a b = '.' ∨ s.grid a b = '+' ∨ s.grid a b = '#' ∨
    ∃ i : Fin 4, s.grid a b = markerChar i)

instance (s : GameState) : Decidable (Inv s) := by unfold Inv; infer_instance

/-! ### What `refreshPlayerPositions` computes, cell by cell -/

/-- Placement happens at `(a, b)` for player `i` iff it is active with
positive hp and its coordinates index that cell. -/
def placeCond (ps : Fin 4 → Player) (i : Fin 4) (a b : Fin 5) : Prop :=
  (ps i).active = true ∧ (ps i).hp > 0 ∧
    pyIdx 5 (ps i).x = some a ∧ pyIdx 5 (ps i).y = some b

instance (ps : Fin 4 → Player) (i : Fin 4) (a b : Fin 5) : Decidable (placeCond ps i a b) := by
  unfold placeCond; infer_instance

theorem placeOne_apply (ps : Fin 4 → Player) (i : Fin 4) (g : Grid) (a b : Fin 5) :
    placeOne ps i g a b = if placeCond ps i a b then markerChar i else g a b := by
  unfold placeOne placeCond
  by_cases h : (ps i).active = true ∧ (ps i).hp > 0
  · rw [if_pos h, gridSet_apply]
    by_cases h2 : pyIdx 5 (ps i).x = some a ∧ pyIdx 5 (ps i).y = some b
    · rw [if_pos h2, if_pos ⟨h.1, h.2, h2.1, h2.2⟩]
    · rw [if_neg h2, if_neg (by tauto)]
  · rw [if_neg h, if_neg (by tauto)]

theorem clearPass_apply (g : Grid) (a b : Fin 5) :
    clearPass g a b = if g a b = '#' ∨ g a b = '+' then g a b else '.' := by
  unfold clearPass
  by_cases h1 : g a b = '#' <;> by_cases h2 : g a b = '+' <;> simp [h1, h2]

theorem refresh_apply (s : GameState) (a b : Fin 5) :
    (refreshPlayerPositions s).grid a b =
      if placeCond s.players 3 a b then markerChar 3
      else if placeCond s.players 2 a b then markerChar 2
      else if placeCond s.players 1 a b then markerChar 1
      else if placeCond s.players 0 a b then markerChar 0
      else if s.grid a b = '#' ∨ s.grid a b = '+' then s.grid a b else '.' := by
  show placeOne _ 3 _ a b = _
  rw [placeOne_apply, placeOne_apply, placeOne_apply, placeOne_apply, clearPass_apply]

theorem refresh_players (s : GameState) :
    (refreshPlayerPositions s).players = s.players := rfl

theorem refresh_clientCount (s : GameState) :
    (refreshPlayerPositions s).clientCount = s.clientCount := rfl

/-- The value the placement loop leaves in a cell, given the value `X`
that the clear pass left there. -/
def placeChain (ps : Fin 4 → Player) (a b : Fin 5) (X : Char) : Char :=
  if placeCond ps 3 a b then markerChar 3
  else if placeCond ps 2 a b then markerChar 2
  else if placeCond ps 1 a b then markerChar 1
  else if placeCond ps 0 a b then markerChar 0
  else X

theorem refresh_apply_chain (s : GameState) (a b : Fin 5) :
    (refreshPlayerPositions s).grid a b =
      placeChain s.players a b
        (if s.grid a b = '#' ∨ s.grid a b = '+' then s.grid a b else '.') :=
  refresh_apply s a b

theorem placeChain_eval {ps : Fin 4 → Player} {a b : Fin 5} {i : Fin 4}
    (hpci : placeCond ps i a b)
    (huniq : ∀ j : Fin 4, placeCond ps j a b → j = i) (X : Char) :
    placeChain ps a b X = markerChar i := by
  unfold placeChain
  by_cases h3 : placeCond ps 3 a b
  · rw [if_pos h3, huniq 3 h3]
  rw [if_neg h3]
  by_cases h2 : placeCond ps 2 a b
  · rw [if_pos h2, huniq 2 h2]
  rw [if_neg h2]
  by_cases h1 : placeCond ps 1 a b
  · rw [if_pos h1, huniq 1 h1]
  rw [if_neg h1]
  by_cases h0 : placeCond ps 0 a b
  · rw [if_pos h0, huniq 0 h0]
  exfalso
  have hcase : i = 0 ∨ i = 1 ∨ i = 2 ∨ i = 3 := by fin_cases i <;> decide
  rcases hcase with rfl | rfl | rfl | rfl
  · exact h0 hpci
  · exact h1 hpci
  · exact h2 hpci
  · exact h3 hpci

theorem placeChain_eval_none {ps : Fin 4 → Player} {a b : Fin 5}
    (h : ∀ j : Fin 4, ¬ placeCond ps j a b) (X : Char) :
    placeChain ps a b X = X := by
  unfold placeChain
  rw [if_neg (h 3), if_neg (h 2), if_neg (h 1), if_neg (h 0)]

theorem placeChain_cases (ps : Fin 4 → Player) (a b : Fin 5) (X : Char) :
    placeChain ps a b X = X ∨
      ∃ j : Fin 4, placeChain ps a b X = markerChar j ∧ placeCond ps j a b := by
  unfold placeChain
  by_cases h3 : placeCond ps 3 a b
  · exact Or.inr ⟨3, by rw [if_pos h3], h3⟩
  rw [if_neg h3]
  by_cases h2 : placeCond ps 2 a b
  · exact Or.inr ⟨2, by rw [if_pos h2], h2⟩
  rw [if_neg h2]
  by_cases h1 : placeCond ps 1 a b
  · exact Or.inr ⟨1, by rw [if_pos h1], h1⟩
  rw [if_neg h1]
  by_cases h0 : placeCond ps 0 a b
  · exact Or.inr ⟨0, by rw [if_pos h0], h0⟩
  rw [if_neg h0]
  exact Or.inl rfl

theorem placeCond_iff_of (ps : Fin 4 → Player) (i : Fin 4) (a b : Fin 5)
    (hb : (ps i).active = true → inB (ps i).x (ps i).y) :
    placeCond ps i a b ↔
      ((ps i).active = true ∧ (ps i).hp > 0 ∧
        (a : Int) = (ps i).x ∧ (b : Int) = (ps i).y) := by
  constructor
  · rintro ⟨hact, hhp, hx, hy⟩
    have hbi := hb hact
    rw [pyIdx_eq_some_of_nonneg hbi.1] at hx
    rw [pyIdx_eq_some_of_nonneg hbi.2.2.1] at hy
    exact ⟨hact, hhp, hx, hy⟩
  · rintro ⟨hact, hhp, hx, hy⟩
    have hbi := hb hact
    exact ⟨hact, hhp, (pyIdx_eq_some_of_nonneg hbi.1).mpr hx,
      (pyIdx_eq_some_of_nonneg hbi.2.2.1).mpr hy⟩

/-- Active players of an `Inv` state stand on pairwise distinct cells. -/
theorem Inv_distinct {s : GameState} (hInv : Inv s) :
    ∀ i j : Fin 4, (s.players i).active = true → (s.players j).active = true →
      (s.players i).x = (s.players j).x → (s.players i).y = (s.players j).y → i = j := by
  intro i j hi hj hx hy
  have gi := (hInv.1 i hi).2.2
  have gj := (hInv.1 j hj).2.2
  rw [hx, hy] at gi
  exact markerChar_inj (gi.symm.trans gj)

/-- Refreshing restores the grid invariant from any player roster whose
active entries are in bounds, have positive hp, and are pairwise
distinct. -/
theorem refresh_establishes (s : GameState)
    (hb : ∀ i : Fin 4, (s.players i).active = true →
      inB (s.players i).x (s.players i).y ∧ (s.players i).hp > 0)
    (hd : ∀ i j : Fin 4, (s.players i).active = true → (s.players j).active = true →
      (s.players i).x = (s.players j).x → (s.players i).y = (s.players j).y → i = j) :
    Inv (refreshPlayerPositions s) := by
  have hpc : ∀ (i : Fin 4) (a b : Fin 5), placeCond s.players i a b ↔
      ((s.players i).active = true ∧ (s.players i).hp > 0 ∧
        (a : Int) = (s.players i).x ∧ (b : Int) = (s.players i).y) :=
    fun i a b => placeCond_iff_of s.players i a b (fun h => (hb i h).1)
  refine ⟨?_, ?_, ?_⟩
  · intro i hact
    rw [refresh_players] at hact
    have hbi := hb i hact
    refine ⟨by rw [refresh_players]; exact hbi.1, by rw [refresh_players]; exact hbi.2, ?_⟩
    rw [refresh_players]
    obtain ⟨h0x, h5x, h0y, h5y⟩ := hbi.1
    rw [gridGet_of_bounds _ h0x h5x h0y h5y, refresh_apply_chain]
    have hxa : ((⟨(s.players i).x.toNat, by omega⟩ : Fin 5) : Int) = (s.players i).x := by
      rw [fin_int_val]; simp; omega
    have hyb : ((⟨(s.players i).y.toNat, by omega⟩ : Fin 5) : Int) = (s.players i).y := by
      rw [fin_int_val]; simp; omega
    have hpci : placeCond s.players i _ _ := (hpc i _ _).mpr ⟨hact, hbi.2, hxa, hyb⟩
    refine placeChain_eval hpci (fun j hj => ?_) _
    have hj2 := (hpc j _ _).mp hj
    exact hd j i hj2.1 hact (hj2.2.2.1.symm.trans hxa) (hj2.2.2.2.symm.trans hyb)
  · intro a b m hm
    rw [refresh_players]
    rw [refresh_apply_chain] at hm
    rcases placeChain_cases s.players a b
        (if s.grid a b = '#' ∨ s.grid a b = '+' then s.grid a b else '.') with hC | ⟨j, hC, hPC⟩
    · rw [hC] at hm
      by_cases ht : s.grid a b = '#' ∨ s.grid a b = '+'
      · rw [if_pos ht] at hm
        rcases ht with ht | ht <;> rw [ht] at hm
        · exact absurd hm.symm (markerChar_ne_hash m)
        · exact absurd hm.symm (markerChar_ne_plus m)
      · rw [if_neg ht] at hm
        exact absurd hm.symm (markerChar_ne_dot m)
    · rw [hC] at hm
      have hjm : j = m := markerChar_inj hm
      subst hjm
      have := (hpc j a b).mp hPC
      exact ⟨this.1, this.2.2.1.symm, this.2.2.2.symm⟩
  · intro a b
    rw [refresh_apply_chain]
    rcases placeChain_cases s.players a b
        (if s.grid a b = '#' ∨ s.grid a b = '+' then s.grid a b else '.') with hC | ⟨j, hC, _⟩
    · rw [hC]
      by_cases ht : s.grid a b = '#' ∨ s.grid a b = '+'
      · rw [if_pos ht]
        rcases ht with ht | ht <;> rw [ht] <;> tauto
      · rw [if_neg ht]; tauto
    · rw [hC]
      exact Or.inr (Or.inr (Or.inr ⟨j, rfl⟩))

/-- On an `Inv` state, `refreshPlayerPositions` is the identity. -/
theorem refresh_id {s : GameState} (hInv : Inv s) : refreshPlayerPositions s = s := by
  obtain ⟨h1, h2, h3⟩ := hInv
  have hd := Inv_distinct ⟨h1, h2, h3⟩
  have hpc : ∀ (i : Fin 4) (a b : Fin 5), placeCond s.players i a b ↔
      ((s.players i).active = true ∧ (s.players i).hp > 0 ∧
        (a : Int) = (s.players i).x ∧ (b : Int) = (s.players i).y) :=
    fun i a b => placeCond_iff_of s.players i a b (fun h => (h1 i h).1)
  have hgrid : ∀ a b : Fin 5, (refreshPlayerPositions s).grid a b = s.grid a b := by
    intro a b
    rw [refresh_apply_chain]
    by_cases hex : ∃ j, placeCond s.players j a b
    · obtain ⟨j, hj⟩ := hex
      have hj2 := (hpc j a b).mp hj
      have huniq : ∀ k, placeCond s.players k a b → k = j := by
        intro k hk
        have hk2 := (hpc k a b).mp hk
        exact hd k j hk2.1 hj2.1 (hk2.2.2.1.symm.trans hj2.2.2.1)
          (hk2.2.2.2.symm.trans hj2.2.2.2)
      rw [placeChain_eval hj huniq]
      have hbj := (h1 j hj2.1).1
      have hg := (h1 j hj2.1).2.2
      obtain ⟨h0x, h5x, h0y, h5y⟩ := hbj
      rw [gridGet_of_bounds _ h0x h5x h0y h5y] at hg
      have hax : (⟨(s.players j).x.toNat, by omega⟩ : Fin 5) = a := by
        apply Fin.ext
        show (s.players j).x.toNat = a.val
        have hv := hj2.2.2.1
        rw [fin_int_val] at hv
        omega
      have hby : (⟨(s.players j).y.toNat, by omega⟩ : Fin 5) = b := by
        apply Fin.ext
        show (s.players j).y.toNat = b.val
        have hv := hj2.2.2.2
        rw [fin_int_val] at hv
        omega
      rw [hax, hby] at hg
      exact hg.symm
    · push_neg at hex
      rw [placeChain_eval_none hex]
      by_cases ht : s.grid a b = '#' ∨ s.grid a b = '+'
      · rw [if_pos ht]
      · rw [if_neg ht]
        rcases h3 a b with hc | hc | hc | ⟨m, hc⟩
        · exact hc.symm
        · exact absurd (Or.inr hc) ht
        · exact absurd (Or.inl hc) ht
        · exfalso
          have hm := h2 a b m hc
          have hbm := h1 m hm.1
          exact hex m ((hpc m a b).mpr ⟨hm.1, hbm.2.1, hm.2.1.symm, hm.2.2.symm⟩)
  apply GameState.ext
  · exact funext fun a => funext fun b => hgrid a b
  · rfl
  · rfl

/-! ### What a broadcast delivers -/

/-- The slots that currently hold a live channel, in slot order. -/
def liveSlots (socks : Fin 4 → Option Channel) : List (Fin 4) :=
  ([0, 1, 2, 3] : List (Fin 4)).filter (fun i => decide (socks i = some true))

/-- The per-recipient delivery log of one broadcast of `msg`. -/
def broadcastEntries (socks : Fin 4 → Option Channel) (msg : String) : List (Fin 4 × String) :=
  (liveSlots socks).map (fun i => (i, msg))

theorem bcastLoop_game (msg : String) (L : List (Fin 4)) (w : World) :
    (bcastLoop msg L w).game = w.game := by
  induction L generalizing w with
  | nil => rfl
  | cons i rest ih =>
    cases h : w.socks i with
    | none => rw [bcastLoop, h]; exact ih _
    | some v => cases v <;> (rw [bcastLoop, h]; exact ih _)

theorem bcastLoop_spec (msg : String) (L : List (Fin 4)) (hnd : L.Nodup) (w : World) :
    (bcastLoop msg L w).trace =
      w.trace ++ (L.filter (fun i => decide (w.socks i = some true))).map (fun i => (i, msg)) ∧
    ∀ i : Fin 4, (bcastLoop msg L w).socks i =
      if i ∈ L ∧ w.socks i = some false then none else w.socks i := by
  induction L generalizing w with
  | nil =>
    refine ⟨by simp [bcastLoop], fun i => ?_⟩
    simp [bcastLoop]
  | cons j rest ih =>
    have hndr : rest.Nodup := hnd.of_cons
    have hjr : j ∉ rest := by
      intro hmem
      exact (List.nodup_cons.mp hnd).1 hmem
    cases h : w.socks j with
    | none =>
      rw [bcastLoop, h]
      obtain ⟨iht, ihs⟩ := ih hndr w
      refine ⟨?_, fun i => ?_⟩
      · rw [iht, List.filter_cons]
        simp [h]
      · rw [ihs i]
        by_cases hij : i = j
        · subst hij
          simp [h, hjr]
        · simp [List.mem_cons, hij]
    | some v =>
      cases v with
      | true =>
        rw [bcastLoop, h]
        obtain ⟨iht, ihs⟩ := ih hndr { w with trace := w.trace ++ [(j, msg)] }
        refine ⟨?_, fun i => ?_⟩
        · rw [iht, List.filter_cons]
          simp only [h]
          simp
        · rw [ihs i]
          by_cases hij : i = j
          · subst hij
            simp [h, hjr]
          · simp [List.mem_cons, hij]
      | false =>
        rw [bcastLoop, h]
        obtain ⟨iht, ihs⟩ := ih hndr { w with socks := Function.update w.socks j none }
        refine ⟨?_, fun i => ?_⟩
        · rw [iht, List.filter_cons]
          simp only [h]
          have hfe : rest.filter
                (fun i => decide ((Function.update w.socks j none) i = some true)) =
              rest.filter (fun i => decide (w.socks i = some true)) := by
            apply List.filter_congr
            intro i hi
            have hij : i ≠ j := fun he => hjr (he ▸ hi)
            rw [Function.update_noteq hij]
          rw [hfe]
          simp
        · rw [ihs i]
          by_cases hij : i = j
          · subst hij
            simp [h, Function.update_same, hjr]
          · simp [Function.update_noteq hij, List.mem_cons, hij]

theorem broadcast_game (w : World) : (broadcastState w).game = w.game :=
  bcastLoop_game _ _ w

theorem broadcast_trace (w : World) :
    (broadcastState w).trace = w.trace ++ broadcastEntries w.socks (buildStateString w.game) :=
  (bcastLoop_spec _ [0, 1, 2, 3] (by decide) w).1

theorem broadcast_socks (w : World) (i : Fin 4) :
    (broadcastState w).socks i = if w.socks i = some false then none else w.socks i := by
  have h := (bcastLoop_spec (buildStateString w.game) [0, 1, 2, 3] (by decide) w).2 i
  rw [broadcastState, h]
  have hmem : i ∈ ([0, 1, 2, 3] : List (Fin 4)) := by fin_cases i <;> decide
  by_cases hf : w.socks i = some false
  · rw [if_pos ⟨hmem, hf⟩, if_pos hf]
  · rw [if_neg (fun hc => hf hc.2), if_neg hf]

/-! ### Effects of one MOVE or JUMP branch -/

theorem int_fin_coe {v : Int} (h0 : 0 ≤ v) (h5 : v < 5) :
    ((⟨v.toNat, by omega⟩ : Fin 5) : Int) = v := by
  rw [fin_int_val]
  show ((v.toNat : Nat) : Int) = v
  omega

theorem pyIdx_toNat {v : Int} (h0 : 0 ≤ v) (h5 : v < 5) :
    pyIdx 5 v = some ⟨v.toNat, by omega⟩ :=
  (pyIdx_eq_some_of_nonneg h0).mpr (int_fin_coe h0 h5)

theorem mjMut_grid (g : GameState) (pi : Fin 4) (nx ny : Int) :
    (mjMut pi nx ny g).grid =
      gridSet (gridSet g.grid (g.players pi).x (g.players pi).y '.') nx ny (markerChar pi) := rfl

theorem mjMut_clientCount (g : GameState) (pi : Fin 4) (nx ny : Int) :
    (mjMut pi nx ny g).clientCount = g.clientCount := rfl

theorem mjMut_players (g : GameState) (pi : Fin 4) {nx ny : Int}
    (hsrcB : inB (g.players pi).x (g.players pi).y)
    (hb : inB nx ny)
    (hdiff : ¬(nx = (g.players pi).x ∧ ny = (g.players pi).y)) :
    (mjMut pi nx ny g).players = Function.update g.players pi
      { g.players pi with
        x := nx
        y := ny
        hp := (g.players pi).hp + (if gridGet g.grid nx ny = '+' then 5 else 0) } := by
  have hcell : gridGet (gridSet g.grid (g.players pi).x (g.players pi).y '.') nx ny
      = gridGet g.grid nx ny := by
    rw [gridGet_of_bounds _ hb.1 hb.2.1 hb.2.2.1 hb.2.2.2,
      gridGet_of_bounds _ hb.1 hb.2.1 hb.2.2.1 hb.2.2.2, gridSet_apply]
    rw [if_neg ?_]
    rintro ⟨hx, hy⟩
    rw [pyIdx_eq_some_of_nonneg hsrcB.1] at hx
    rw [pyIdx_eq_some_of_nonneg hsrcB.2.2.1] at hy
    rw [int_fin_coe hb.1 hb.2.1] at hx
    rw [int_fin_coe hb.2.2.1 hb.2.2.2] at hy
    exact hdiff ⟨hx, hy⟩
  have hstep : (mjMut pi nx ny g).players = Function.update g.players pi
      { g.players pi with
        x := nx
        y := ny
        hp := if gridGet (gridSet g.grid (g.players pi).x (g.players pi).y '.') nx ny = '+'
          then (g.players pi).hp + 5 else (g.players pi).hp } := rfl
  rw [hstep, hcell]
  by_cases hplus : gridGet g.grid nx ny = '+' <;> simp [hplus]

theorem tryStep_eq_true (pi : Fin 4) (nx ny : Int) {cond : Bool} (hc : cond = true) (w : World) :
    tryStep pi nx ny cond w =
      broadcastState { w with game := refreshPlayerPositions (mjMut pi nx ny w.game) } := by
  simp [tryStep, hc]

theorem tryStep_eq_false (pi : Fin 4) (nx ny : Int) {cond : Bool} (hc : cond = false) (w : World) :
    tryStep pi nx ny cond w =
      broadcastState { w with game := refreshPlayerPositions w.game } := by
  simp [tryStep, hc]

theorem tryStep_false_effect (w : World) (pi : Fin 4) (nx ny : Int) {cond : Bool}
    (hInv : Inv w.game) (hc : cond = false) :
    (tryStep pi nx ny cond w).game = w.game ∧
    (tryStep pi nx ny cond w).trace =
      w.trace ++ broadcastEntries w.socks (buildStateString (tryStep pi nx ny cond w).game) ∧
    ∀ j, (tryStep pi nx ny cond w).socks j = if w.socks j = some false then none else w.socks j := by
  rw [tryStep_eq_false pi nx ny hc, refresh_id hInv]
  have hw : ({ w with game := w.game } : World) = w := rfl
  rw [hw, broadcast_game]
  exact ⟨rfl, broadcast_trace w, broadcast_socks w⟩

/-- The player record `mjMut` writes into the mover's slot. -/
def mjPayload (g : GameState) (pi : Fin 4) (nx ny : Int) : Player :=
  let p := g.players pi
  { p with
    x := nx
    y := ny
    hp := if gridGet (gridSet g.grid p.x p.y '.') nx ny = '+' then p.hp + 5 else p.hp }

theorem mjMut_players_raw (g : GameState) (pi : Fin 4) (nx ny : Int) :
    (mjMut pi nx ny g).players = Function.update g.players pi (mjPayload g pi nx ny) := rfl

theorem mjPayload_x (g : GameState) (pi : Fin 4) (nx ny : Int) :
    (mjPayload g pi nx ny).x = nx := rfl

theorem mjPayload_y (g : GameState) (pi : Fin 4) (nx ny : Int) :
    (mjPayload g pi nx ny).y = ny := rfl

theorem mjPayload_active (g : GameState) (pi : Fin 4) (nx ny : Int) :
    (mjPayload g pi nx ny).active = (g.players pi).active := rfl

theorem mjPayload_hp_pos (g : GameState) (pi : Fin 4) (nx ny : Int)
    (h : (g.players pi).hp > 0) : (mjPayload g pi nx ny).hp > 0 := by
  show (if gridGet (gridSet g.grid (g.players pi).x (g.players pi).y '.') nx ny = '+'
    then (g.players pi).hp + 5 else (g.players pi).hp) > 0
  split <;> omega

theorem tryStep_true_effect (w : World) (pi : Fin 4) (nx ny : Int) {cond : Bool}
    (hInv : Inv w.game) (hact : (w.game.players pi).active = true) (hc : cond = true)
    (hb : inB nx ny)
    (hcell : gridGet w.game.grid nx ny = '.' ∨ gridGet w.game.grid nx ny = '+')
    (hdiff : ¬(nx = (w.game.players pi).x ∧ ny = (w.game.players pi).y)) :
    (tryStep pi nx ny cond w).game.players = Function.update w.game.players pi
      { w.game.players pi with
        x := nx
        y := ny
        hp := (w.game.players pi).hp +
          (if gridGet w.game.grid nx ny = '+' then 5 else 0) } ∧
    gridGet (tryStep pi nx ny cond w).game.grid nx ny = markerChar pi ∧
    gridGet (tryStep pi nx ny cond w).game.grid
      (w.game.players pi).x (w.game.players pi).y = '.' ∧
    (tryStep pi nx ny cond w).game.clientCount = w.game.clientCount ∧
    (tryStep pi nx ny cond w).trace =
      w.trace ++ broadcastEntries w.socks (buildStateString (tryStep pi nx ny cond w).game) ∧
    ∀ j, (tryStep pi nx ny cond w).socks j =
      if w.socks j = some false then none else w.socks j := by
  have hsrcB : inB (w.game.players pi).x (w.game.players pi).y := (hInv.1 pi hact).1
  have hhp : (w.game.players pi).hp > 0 := (hInv.1 pi hact).2.1
  have hmark := (hInv.1 pi hact).2.2
  obtain ⟨hpx0, hpx5, hpy0, hpy5⟩ := hsrcB
  obtain ⟨hnx0, hnx5, hny0, hny5⟩ := hb
  have hP : (mjMut pi nx ny w.game).players pi = mjPayload w.game pi nx ny := by
    rw [mjMut_players_raw, Function.update_same]
  have hPn : ∀ j, j ≠ pi → (mjMut pi nx ny w.game).players j = w.game.players j := by
    intro j hj
    rw [mjMut_players_raw, Function.update_noteq hj]
  rw [tryStep_eq_true pi nx ny hc, broadcast_game]
  refine ⟨?_, ?_, ?_, ?_, ?_, ?_⟩
  · show (refreshPlayerPositions (mjMut pi nx ny w.game)).players = _
    rw [refresh_players]
    exact mjMut_players w.game pi ⟨hpx0, hpx5, hpy0, hpy5⟩ ⟨hnx0, hnx5, hny0, hny5⟩ hdiff
  · show gridGet (refreshPlayerPositions (mjMut pi nx ny w.game)).grid nx ny = markerChar pi
    rw [gridGet_of_bounds _ hnx0 hnx5 hny0 hny5, refresh_apply_chain]
    refine placeChain_eval ?_ ?_ _
    · exact ⟨by rw [hP, mjPayload_active]; exact hact,
        by rw [hP]; exact mjPayload_hp_pos _ _ _ _ hhp,
        by rw [hP, mjPayload_x]; exact pyIdx_toNat hnx0 hnx5,
        by rw [hP, mjPayload_y]; exact pyIdx_toNat hny0 hny5⟩
    · intro j hj
      by_cases hjp : j = pi
      · exact hjp
      exfalso
      obtain ⟨hja, hjh, hjx, hjy⟩ := hj
      rw [hPn j hjp] at hja hjx hjy
      have hjb := (hInv.1 j hja).1
      rw [pyIdx_eq_some_of_nonneg hjb.1] at hjx
      rw [pyIdx_eq_some_of_nonneg hjb.2.2.1] at hjy
      rw [int_fin_coe hnx0 hnx5] at hjx
      rw [int_fin_coe hny0 hny5] at hjy
      have hgj := (hInv.1 j hja).2.2
      rw [← hjx, ← hjy] at hgj
      rcases hcell with hc2 | hc2 <;> rw [hc2] at hgj
      · exact markerChar_ne_dot j hgj.symm
      · exact markerChar_ne_plus j hgj.symm
  · show gridGet (refreshPlayerPositions (mjMut pi nx ny w.game)).grid
      (w.game.players pi).x (w.game.players pi).y = '.'
    rw [gridGet_of_bounds _ hpx0 hpx5 hpy0 hpy5, refresh_apply_chain]
    have hnone : ∀ j, ¬ placeCond (mjMut pi nx ny w.game).players j
        ⟨(w.game.players pi).x.toNat, by omega⟩ ⟨(w.game.players pi).y.toNat, by omega⟩ := by
      intro j hj
      obtain ⟨hja, hjh, hjx, hjy⟩ := hj
      by_cases hjp : j = pi
      · subst hjp
        rw [hP, mjPayload_x] at hjx
        rw [hP, mjPayload_y] at hjy
        rw [pyIdx_eq_some_of_nonneg hnx0] at hjx
        rw [pyIdx_eq_some_of_nonneg hny0] at hjy
        rw [int_fin_coe hpx0 hpx5] at hjx
        rw [int_fin_coe hpy0 hpy5] at hjy
        exact hdiff ⟨hjx.symm, hjy.symm⟩
      · rw [hPn j hjp] at hja hjx hjy
        have hjb := (hInv.1 j hja).1
        rw [pyIdx_eq_some_of_nonneg hjb.1] at hjx
        rw [pyIdx_eq_some_of_nonneg hjb.2.2.1] at hjy
        rw [int_fin_coe hpx0 hpx5] at hjx
        rw [int_fin_coe hpy0 hpy5] at hjy
        have hgj := (hInv.1 j hja).2.2
        rw [← hjx, ← hjy] at hgj
        rw [hmark] at hgj
        exact hjp (markerChar_inj hgj.symm)
    have hnotdest : ¬(pyIdx 5 nx =
        some ⟨(w.game.players pi).x.toNat, by omega⟩ ∧
        pyIdx 5 ny = some ⟨(w.game.players pi).y.toNat, by omega⟩) := by
      rintro ⟨hx2, hy2⟩
      rw [pyIdx_eq_some_of_nonneg hnx0] at hx2
      rw [pyIdx_eq_some_of_nonneg hny0] at hy2
      rw [int_fin_coe hpx0 hpx5] at hx2
      rw [int_fin_coe hpy0 hpy5] at hy2
      exact hdiff ⟨hx2.symm, hy2.symm⟩
    have hms : (mjMut pi nx ny w.game).grid
        ⟨(w.game.players pi).x.toNat, by omega⟩ ⟨(w.game.players pi).y.toNat, by omega⟩ = '.' := by
      rw [mjMut_grid, gridSet_apply, if_neg hnotdest, gridSet_apply,
        if_pos ⟨pyIdx_toNat hpx0 hpx5, pyIdx_toNat hpy0 hpy5⟩]
    rw [hms, placeChain_eval_none hnone]
    simp
  · show (refreshPlayerPositions (mjMut pi nx ny w.game)).clientCount = w.game.clientCount
    rw [refresh_clientCount, mjMut_clientCount]
  · exact broadcast_trace _
  · exact fun j => broadcast_socks _ j

theorem tryStep_inv (w : World) (pi : Fin 4) (nx ny : Int) (cond : Bool)
    (hInv : Inv w.game)
    (hba : cond = true → (w.game.players pi).active = true →
      inB nx ny ∧ (gridGet w.game.grid nx ny = '.' ∨ gridGet w.game.grid nx ny = '+')) :
    Inv ((tryStep pi nx ny cond w).game) := by
  rcases Bool.eq_false_or_eq_true cond with hcond | hcond
  case inr =>
    rw [tryStep_eq_false pi nx ny hcond, broadcast_game]
    exact refresh_establishes _ (fun i h => ⟨(hInv.1 i h).1, (hInv.1 i h).2.1⟩)
      (Inv_distinct hInv)
  case inl =>
    rw [tryStep_eq_true pi nx ny hcond, broadcast_game]
    apply refresh_establishes
    · intro j hact'
      rw [mjMut_players_raw] at hact' ⊢
      by_cases hj : j = pi
      · subst hj
        rw [Function.update_same] at hact' ⊢
        rw [mjPayload_active] at hact'
        have hhp := (hInv.1 j hact').2.1
        rw [mjPayload_x, mjPayload_y]
        exact ⟨(hba hcond hact').1, mjPayload_hp_pos _ _ _ _ hhp⟩
      · rw [Function.update_noteq hj] at hact' ⊢
        exact ⟨(hInv.1 j hact').1, (hInv.1 j hact').2.1⟩
    · intro j k hja hka hx hy
      rw [mjMut_players_raw] at hja hka hx hy
      by_cases hj : j = pi <;> by_cases hk : k = pi
      · rw [hj, hk]
      · exfalso
        subst hj
        rw [Function.update_same] at hja hx hy
        rw [Function.update_noteq hk] at hka hx hy
        rw [mjPayload_active] at hja
        rw [mjPayload_x] at hx
        rw [mjPayload_y] at hy
        have hcell := (hba hcond hja).2
        have hgk := (hInv.1 k hka).2.2
        rw [← hx, ← hy] at hgk
        rcases hcell with hcell | hcell <;> rw [hcell] at hgk
        · exact markerChar_ne_dot k hgk.symm
        · exact markerChar_ne_plus k hgk.symm
      · exfalso
        subst hk
        rw [Function.update_same] at hka hx hy
        rw [Function.update_noteq hj] at hja hx hy
        rw [mjPayload_active] at hka
        rw [mjPayload_x] at hx
        rw [mjPayload_y] at hy
        have hcell := (hba hcond hka).2
        have hgj := (hInv.1 j hja).2.2
        rw [hx, hy] at hgj
        rcases hcell with hcell | hcell <;> rw [hcell] at hgj
        · exact markerChar_ne_dot j hgj.symm
        · exact markerChar_ne_plus j hgj.symm
      · rw [Function.update_noteq hj] at hja hx hy
        rw [Function.update_noteq hk] at hka hx hy
        exact Inv_distinct hInv j k hja hka hx hy

/-! ### The legality of a MOVE or JUMP, as the design states it -/

/-- The destination is in bounds, not the obstacle, and not occupied by
another active player. -/
def specLegal (s : GameState) (i : Fin 4) (nx ny : Int) : Prop :=
  inB nx ny ∧ gridGet s.grid nx ny ≠ '#' ∧
    ∀ j : Fin 4, j ≠ i → (s.players j).active = true →
      ¬((s.players j).x = nx ∧ (s.players j).y = ny)

instance (s : GameState) (i : Fin 4) (nx ny : Int) : Decidable (specLegal s i nx ny) := by
  unfold specLegal; infer_instance

/-- On an invariant state the code's cell test (destination shows `'.'`
or `'+'`) says exactly that the destination is not the obstacle and not
another active player's cell, for any destination other than the mover's
own cell. -/
theorem cell_free_iff {s : GameState} {i : Fin 4} {nx ny : Int}
    (hInv : Inv s) (hact : (s.players i).active = true) (hb : inB nx ny)
    (hdiff : ¬(nx = (s.players i).x ∧ ny = (s.players i).y)) :
    (gridGet s.grid nx ny = '.' ∨ gridGet s.grid nx ny = '+') ↔
      (gridGet s.grid nx ny ≠ '#' ∧ ∀ j : Fin 4, j ≠ i → (s.players j).active = true →
        ¬((s.players j).x = nx ∧ (s.players j).y = ny)) := by
  obtain ⟨hnx0, hnx5, hny0, hny5⟩ := hb
  constructor
  · intro hcell
    constructor
    · rcases hcell with h | h <;> rw [h] <;> decide
    · intro j hj hja hpos
      obtain ⟨hjx, hjy⟩ := hpos
      have hgj := (hInv.1 j hja).2.2
      rw [hjx, hjy] at hgj
      rcases hcell with h | h <;> rw [h] at hgj
      · exact markerChar_ne_dot j hgj.symm
      · exact markerChar_ne_plus j hgj.symm
  · rintro ⟨hhash, hocc⟩
    have h3 := hInv.2.2 ⟨nx.toNat, by omega⟩ ⟨ny.toNat, by omega⟩
    rw [gridGet_of_bounds _ hnx0 hnx5 hny0 hny5] at hhash ⊢
    rcases h3 with h | h | h | ⟨m, h⟩
    · exact Or.inl h
    · exact Or.inr h
    · exact absurd h hhash
    · exfalso
      have hm := hInv.2.1 _ _ m h
      by_cases hmi : m = i
      · subst hmi
        exact hdiff ⟨(hm.2.1.trans (int_fin_coe hnx0 hnx5)).symm,
          (hm.2.2.trans (int_fin_coe hny0 hny5)).symm⟩
      · exact hocc m hmi hm.1 ⟨hm.2.1.trans (int_fin_coe hnx0 hnx5),
          hm.2.2.trans (int_fin_coe hny0 hny5)⟩

theorem mj_case_core (w : World) (i : Fin 4) (nx ny : Int) (cond : Bool)
    (hInv : Inv w.game) (hact : (w.game.players i).active = true)
    (hdiff : ¬(nx = (w.game.players i).x ∧ ny = (w.game.players i).y))
    (hcond : cond = true ↔
      (inB nx ny ∧ (gridGet w.game.grid nx ny = '.' ∨ gridGet w.game.grid nx ny = '+'))) :
    (specLegal w.game i nx ny →
      (tryStep i nx ny cond w).game.players = Function.update w.game.players i
        { w.game.players i with
          x := nx
          y := ny
          hp := (w.game.players i).hp +
            (if gridGet w.game.grid nx ny = '+' then 5 else 0) } ∧
      gridGet (tryStep i nx ny cond w).game.grid nx ny = markerChar i ∧
      gridGet (tryStep i nx ny cond w).game.grid
        (w.game.players i).x (w.game.players i).y = '.' ∧
      (tryStep i nx ny cond w).game.clientCount = w.game.clientCount) ∧
    (¬ specLegal w.game i nx ny → (tryStep i nx ny cond w).game = w.game) ∧
    (tryStep i nx ny cond w).trace =
      w.trace ++ broadcastEntries w.socks (buildStateString (tryStep i nx ny cond w).game) ∧
    (∀ j, (tryStep i nx ny cond w).socks j =
      if w.socks j = some false then none else w.socks j) ∧
    Inv (tryStep i nx ny cond w).game := by
  by_cases hsL : specLegal w.game i nx ny
  · have hb := hsL.1
    have hcell := (cell_free_iff hInv hact hb hdiff).mpr ⟨hsL.2.1, hsL.2.2⟩
    have hc : cond = true := hcond.mpr ⟨hb, hcell⟩
    obtain ⟨e1, e2, e3, e4, e5, e6⟩ := tryStep_true_effect w i nx ny hInv hact hc hb hcell hdiff
    refine ⟨fun _ => ⟨e1, e2, e3, e4⟩, fun hn => absurd hsL hn, e5, e6, ?_⟩
    exact tryStep_inv w i nx ny cond hInv (fun _ _ => ⟨hb, hcell⟩)
  · have hc : cond = false := by
      rcases Bool.eq_false_or_eq_true cond with h | h
      · exfalso
        obtain ⟨hb, hcell⟩ := hcond.mp h
        have := (cell_free_iff hInv hact hb hdiff).mp hcell
        exact hsL ⟨hb, this.1, this.2⟩
      · exact h
    obtain ⟨e1, e2, e3⟩ := tryStep_false_effect w i nx ny hInv hc
    refine ⟨fun hl => absurd hl hsL, fun _ => e1, e2, e3, ?_⟩
    rw [e1]
    exact hInv

/-! ### The eight MOVE and JUMP branches, uniformly -/

/-- One-cell step for MOVE, two for JUMP. -/
def stepLen (jj : Bool) : Int := if jj then 2 else 1

/-- The row of the destination cell. -/
def destX (p : Player) (d : Dir) (k : Int) : Int :=
  match d with
  | .up => p.x - k
  | .down => p.x + k
  | .left => p.x
  | .right => p.x

/-- The column of the destination cell. -/
def destY (p : Player) (d : Dir) (k : Int) : Int :=
  match d with
  | .up => p.y
  | .down => p.y
  | .left => p.y - k
  | .right => p.y + k

/-- Either movement branch family: `jumpAction` when `jj`, else
`moveAction`. -/
def mjStep (i : Fin 4) (jj : Bool) (d : Dir) (w : World) : World :=
  if jj then jumpAction i d w else moveAction i d w

theorem condUL_iff (nx ny : Int) (c : Char) (hy0 : 0 ≤ ny) (hy5 : ny < 5) :
    ((decide (0 ≤ nx) && decide (nx < 5) && (c == '.' || c == '+')) = true) ↔
      (inB nx ny ∧ (c = '.' ∨ c = '+')) := by
  simp only [Bool.and_eq_true, Bool.or_eq_true, decide_eq_true_eq, beq_iff_eq, inB]
  tauto

theorem condDR_iff (nx ny : Int) (c : Char) (hlow : 0 ≤ nx) (hy0 : 0 ≤ ny) (hy5 : ny < 5) :
    ((decide (nx < 5) && (c == '.' || c == '+')) = true) ↔
      (inB nx ny ∧ (c = '.' ∨ c = '+')) := by
  simp only [Bool.and_eq_true, Bool.or_eq_true, decide_eq_true_eq, beq_iff_eq, inB]
  tauto

theorem condLR_iff (nx ny : Int) (c : Char) (hx0 : 0 ≤ nx) (hx5 : nx < 5) :
    ((decide (0 ≤ ny) && decide (ny < 5) && (c == '.' || c == '+')) = true) ↔
      (inB nx ny ∧ (c = '.' ∨ c = '+')) := by
  simp only [Bool.and_eq_true, Bool.or_eq_true, decide_eq_true_eq, beq_iff_eq, inB]
  tauto

theorem condR_iff (nx ny : Int) (c : Char) (hx0 : 0 ≤ nx) (hx5 : nx < 5) (hlow : 0 ≤ ny) :
    ((decide (ny < 5) && (c == '.' || c == '+')) = true) ↔
      (inB nx ny ∧ (c = '.' ∨ c = '+')) := by
  simp only [Bool.and_eq_true, Bool.or_eq_true, decide_eq_true_eq, beq_iff_eq, inB]
  tauto

/-- Unified effect of any MOVE or JUMP branch on an invariant state with
an active mover: the mutation happens exactly when the design's legality
condition holds; an illegal destination leaves the game state untouched;
either way the refreshed state is broadcast; and the invariant is
preserved. -/
theorem mj_effect (w : World) (i : Fin 4) (jj : Bool) (d : Dir)
    (hInv : Inv w.game) (hact : (w.game.players i).active = true) :
    (specLegal w.game i (destX (w.game.players i) d (stepLen jj))
        (destY (w.game.players i) d (stepLen jj)) →
      (mjStep i jj d w).game.players = Function.update w.game.players i
        { w.game.players i with
          x := destX (w.game.players i) d (stepLen jj)
          y := destY (w.game.players i) d (stepLen jj)
          hp := (w.game.players i).hp +
            (if gridGet w.game.grid (destX (w.game.players i) d (stepLen jj))
              (destY (w.game.players i) d (stepLen jj)) = '+' then 5 else 0) } ∧
      gridGet (mjStep i jj d w).game.grid (destX (w.game.players i) d (stepLen jj))
        (destY (w.game.players i) d (stepLen jj)) = markerChar i ∧
      gridGet (mjStep i jj d w).game.grid
        (w.game.players i).x (w.game.players i).y = '.' ∧
      (mjStep i jj d w).game.clientCount = w.game.clientCount) ∧
    (¬ specLegal w.game i (destX (w.game.players i) d (stepLen jj))
        (destY (w.game.players i) d (stepLen jj)) →
      (mjStep i jj d w).game = w.game) ∧
    (mjStep i jj d w).trace =
      w.trace ++ broadcastEntries w.socks (buildStateString (mjStep i jj d w).game) ∧
    (∀ j, (mjStep i jj d w).socks j = if w.socks j = some false then none else w.socks j) ∧
    Inv (mjStep i jj d w).game := by
  obtain ⟨hx0, hx5, hy0, hy5⟩ := (hInv.1 i hact).1
  cases jj <;> cases d
  · refine mj_case_core w i ((w.game.players i).x - 1) (w.game.players i).y _
      hInv hact ?_ ?_
    · intro h; omega
    · exact condUL_iff _ _ _ hy0 hy5
  · refine mj_case_core w i ((w.game.players i).x + 1) (w.game.players i).y _
      hInv hact ?_ ?_
    · intro h; omega
    · exact condDR_iff _ _ _ (by omega) hy0 hy5
  · refine mj_case_core w i (w.game.players i).x ((w.game.players i).y - 1) _
      hInv hact ?_ ?_
    · intro h; omega
    · exact condLR_iff _ _ _ hx0 hx5
  · refine mj_case_core w i (w.game.players i).x ((w.game.players i).y + 1) _
      hInv hact ?_ ?_
    · intro h; omega
    · exact condR_iff _ _ _ hx0 hx5 (by omega)
  · refine mj_case_core w i ((w.game.players i).x - 2) (w.game.players i).y _
      hInv hact ?_ ?_
    · intro h; omega
    · exact condUL_iff _ _ _ hy0 hy5
  · refine mj_case_core w i ((w.game.players i).x + 2) (w.game.players i).y _
      hInv hact ?_ ?_
    · intro h; omega
    · exact condDR_iff _ _ _ (by omega) hy0 hy5
  · refine mj_case_core w i (w.game.players i).x ((w.game.players i).y - 2) _
      hInv hact ?_ ?_
    · intro h; omega
    · exact condLR_iff _ _ _ hx0 hx5
  · refine mj_case_core w i (w.game.players i).x ((w.game.players i).y + 2) _
      hInv hact ?_ ?_
    · intro h; omega
    · exact condR_iff _ _ _ hx0 hx5 (by omega)

/-- Every MOVE or JUMP branch preserves the invariant, whether or not the
commanded slot is active. -/
theorem mjStep_inv (w : World) (i : Fin 4) (jj : Bool) (d : Dir) (hInv : Inv w.game) :
    Inv (mjStep i jj d w).game := by
  by_cases hact : (w.game.players i).active = true
  · exact (mj_effect w i jj d hInv hact).2.2.2.2
  · cases jj <;> cases d <;>
      exact tryStep_inv w i _ _ _ hInv (fun _ h => absurd h hact)

/-! ### Joining and the markers a refreshed grid can show -/

/-- A marker on a refreshed grid always belongs to an active player with
positive hp. -/
theorem refresh_marker_active (s : GameState) (a b : Fin 5) (m : Fin 4)
    (h : (refreshPlayerPositions s).grid a b = markerChar m) :
    (s.players m).active = true ∧ (s.players m).hp > 0 := by
  rw [refresh_apply_chain] at h
  rcases placeChain_cases s.players a b
      (if s.grid a b = '#' ∨ s.grid a b = '+' then s.grid a b else '.') with hC | ⟨j, hC, hPC⟩
  · rw [hC] at h
    by_cases ht : s.grid a b = '#' ∨ s.grid a b = '+'
    · rw [if_pos ht] at h
      rcases ht with ht | ht <;> rw [ht] at h
      · exact absurd h.symm (markerChar_ne_hash m)
      · exact absurd h.symm (markerChar_ne_plus m)
    · rw [if_neg ht] at h
      exact absurd h.symm (markerChar_ne_dot m)
  · rw [hC] at h
    have hjm := markerChar_inj h
    subst hjm
    exact ⟨hPC.1, hPC.2.1⟩

/-- A marker on a refreshed grid sits exactly at its owner's current
cell, provided the owner's coordinates are in bounds whenever it is
active. -/
theorem refresh_marker_pos (s : GameState) (a b : Fin 5) (m : Fin 4)
    (hbm : (s.players m).active = true → inB (s.players m).x (s.players m).y)
    (h : (refreshPlayerPositions s).grid a b = markerChar m) :
    (s.players m).active = true ∧ (s.players m).x = (a : Int) ∧
      (s.players m).y = (b : Int) := by
  rw [refresh_apply_chain] at h
  rcases placeChain_cases s.players a b
      (if s.grid a b = '#' ∨ s.grid a b = '+' then s.grid a b else '.') with hC | ⟨j, hC, hPC⟩
  · rw [hC] at h
    by_cases ht : s.grid a b = '#' ∨ s.grid a b = '+'
    · rw [if_pos ht] at h
      rcases ht with ht | ht <;> rw [ht] at h
      · exact absurd h.symm (markerChar_ne_hash m)
      · exact absurd h.symm (markerChar_ne_plus m)
    · rw [if_neg ht] at h
      exact absurd h.symm (markerChar_ne_dot m)
  · rw [hC] at h
    have hjm := markerChar_inj h
    subst hjm
    have hiff := (placeCond_iff_of s.players j a b hbm).mp hPC
    exact ⟨hiff.1, hiff.2.2.1.symm, hiff.2.2.2.symm⟩

/-- The player record a join writes into the slot. -/
def joinPayload (i : Fin 4) : Player :=
  { x := (i.val : Int), y := 0, hp := 100, active := true }

theorem clientJoin_game (i : Fin 4) (w : World) :
    (clientJoin i w).game = refreshPlayerPositions
      { w.game with players := Function.update w.game.players i (joinPayload i) } := by
  cases h : w.socks i with
  | none => simp only [clientJoin, joinPayload, h]
  | some b =>
    cases b
    · simp only [clientJoin, joinPayload, h]
    · simp only [clientJoin, joinPayload, h]
      rw [broadcast_game]

theorem clientJoin_players (i : Fin 4) (w : World) :
    (clientJoin i w).game.players = Function.update w.game.players i (joinPayload i) := by
  rw [clientJoin_game, refresh_players]

theorem clientJoin_trace_live (i : Fin 4) (w : World) (hlive : w.socks i = some true) :
    (clientJoin i w).trace = w.trace ++ [(i, "READY\n")] ++
      broadcastEntries w.socks (buildStateString (clientJoin i w).game) := by
  have hg : (clientJoin i w).game = refreshPlayerPositions
      { w.game with players := Function.update w.game.players i (joinPayload i) } :=
    clientJoin_game i w
  simp only [clientJoin, joinPayload, hlive] at hg ⊢
  rw [broadcast_trace]
  rw [broadcast_game]

/-- The markers of the state that a join broadcasts all belong to active
players of the broadcast state. -/
theorem clientJoin_marker_active (i : Fin 4) (w : World) (a b : Fin 5) (m : Fin 4)
    (h : (clientJoin i w).game.grid a b = markerChar m) :
    ((clientJoin i w).game.players m).active = true := by
  rw [clientJoin_game] at h ⊢
  rw [refresh_players]
  exact (refresh_marker_active _ a b m h).1

/-! ### Valid initial join states -/

/-- A world with the freshly initialised game, four live channels waiting
on their sockets, and nothing delivered yet. -/
def initWorld : World :=
  { game := initGameState, socks := fun _ => some true, trace := [] }

/-- Run the join phase for each listed slot in order. -/
def joinAll (ks : List (Fin 4)) (w : World) : World :=
  ks.foldl (fun w i => clientJoin i w) w

/-- The join-stage invariant: the state invariant plus the fact that
every active player still stands on its slot's start cell. -/
def J (s : GameState) : Prop :=
  Inv s ∧ ∀ j : Fin 4, (s.players j).active = true →
    (s.players j).x = (j.val : Int) ∧ (s.players j).y = 0

instance (s : GameState) : Decidable (J s) := by unfold J; infer_instance

theorem clientJoin_J (i : Fin 4) (w : World) (hJ : J w.game) : J (clientJoin i w).game := by
  obtain ⟨hInv, hpos⟩ := hJ
  rw [clientJoin_game]
  have hb : ∀ j : Fin 4, ((Function.update w.game.players i (joinPayload i)) j).active = true →
      inB ((Function.update w.game.players i (joinPayload i)) j).x
        ((Function.update w.game.players i (joinPayload i)) j).y ∧
      ((Function.update w.game.players i (joinPayload i)) j).hp > 0 := by
    intro j hact
    by_cases hj : j = i
    · subst hj
      rw [Function.update_same] at hact ⊢
      simp only [joinPayload, inB]
      have hlt := j.isLt
      exact ⟨⟨by omega, by omega, by omega, by omega⟩, by omega⟩
    · rw [Function.update_noteq hj] at hact ⊢
      exact ⟨(hInv.1 j hact).1, (hInv.1 j hact).2.1⟩
  have hd : ∀ j k : Fin 4,
      ((Function.update w.game.players i (joinPayload i)) j).active = true →
      ((Function.update w.game.players i (joinPayload i)) k).active = true →
      ((Function.update w.game.players i (joinPayload i)) j).x =
        ((Function.update w.game.players i (joinPayload i)) k).x →
      ((Function.update w.game.players i (joinPayload i)) j).y =
        ((Function.update w.game.players i (joinPayload i)) k).y → j = k := by
    intro j k hja hka hx hy
    by_cases hj : j = i <;> by_cases hk : k = i
    · rw [hj, hk]
    · exfalso
      subst hj
      rw [Function.update_same] at hja hx hy
      rw [Function.update_noteq hk] at hka hx hy
      have hkpos := hpos k hka
      have : ((j.val : Nat) : Int) = ((k.val : Nat) : Int) := by
        rw [hkpos.1] at hx
        exact hx
      have hvk : j.val = k.val := by omega
      exact hk (Fin.ext hvk.symm)
    · exfalso
      subst hk
      rw [Function.update_same] at hka hx hy
      rw [Function.update_noteq hj] at hja hx hy
      have hjpos := hpos j hja
      have : ((j.val : Nat) : Int) = ((k.val : Nat) : Int) := by
        rw [hjpos.1] at hx
        exact hx
      have hvk : j.val = k.val := by omega
      exact hj (Fin.ext hvk)
    · rw [Function.update_noteq hj] at hja hx hy
      rw [Function.update_noteq hk] at hka hx hy
      exact Inv_distinct hInv j k hja hka hx hy
  refine ⟨refresh_establishes _ hb hd, ?_⟩
  intro j hact
  rw [refresh_players] at hact ⊢
  dsimp only at hact ⊢
  by_cases hj : j = i
  · subst hj
    rw [Function.update_same] at hact ⊢
    exact ⟨rfl, rfl⟩
  · rw [Function.update_noteq hj] at hact ⊢
    exact hpos j hact

theorem J_init : J initGameState := by decide

theorem joinAll_J (ks : List (Fin 4)) (w : World) (hJ : J w.game) :
    J (joinAll ks w).game := by
  induction ks generalizing w with
  | nil => exact hJ
  | cons k rest ih => exact ih _ (clientJoin_J k w hJ)

/-! ### Folding MOVE and JUMP commands -/

/-- A movement command: the issuing slot, whether it is a JUMP, and the
direction. -/
abbrev MJCmd := Fin 4 × Bool × Dir

/-- Run a sequence of movement commands. -/
def mjFold (cs : List MJCmd) (w : World) : World :=
  cs.foldl (fun w c => mjStep c.1 c.2.1 c.2.2 w) w

theorem mjFold_inv (cs : List MJCmd) (w : World) (h : Inv w.game) :
    Inv (mjFold cs w).game := by
  induction cs generalizing w with
  | nil => exact h
  | cons c rest ih => exact ih _ (mjStep_inv w c.1 c.2.1 c.2.2 h)

/-! ### Terrain cells are never created by movement -/

theorem gridSet_mono (g : Grid) (r c : Int) (v : Char) (a b : Fin 5) (ch : Char)
    (hne : ch ≠ v) (h : gridSet g r c v a b = ch) : g a b = ch := by
  rw [gridSet_apply] at h
  by_cases hcond : pyIdx 5 r = some a ∧ pyIdx 5 c = some b
  · rw [if_pos hcond] at h
    exact absurd h.symm hne
  · rwa [if_neg hcond] at h

theorem refresh_terrain_mono (s : GameState) (a b : Fin 5) (ch : Char)
    (hne1 : ch ≠ '.') (hne2 : ∀ m : Fin 4, ch ≠ markerChar m)
    (h : (refreshPlayerPositions s).grid a b = ch) : s.grid a b = ch := by
  rw [refresh_apply_chain] at h
  rcases placeChain_cases s.players a b
      (if s.grid a b = '#' ∨ s.grid a b = '+' then s.grid a b else '.') with hC | ⟨j, hC, _⟩
  · rw [hC] at h
    by_cases ht : s.grid a b = '#' ∨ s.grid a b = '+'
    · rwa [if_pos ht] at h
    · rw [if_neg ht] at h
      exact absurd h.symm hne1
  · rw [hC] at h
    exact absurd h.symm (hne2 j)

theorem tryStep_terrain_mono (w : World) (pi : Fin 4) (nx ny : Int) (cond : Bool)
    (ch : Char) (hne1 : ch ≠ '.') (hne2 : ∀ m : Fin 4, ch ≠ markerChar m) (a b : Fin 5)
    (h : (tryStep pi nx ny cond w).game.grid a b = ch) : w.game.grid a b = ch := by
  rcases Bool.eq_false_or_eq_true cond with hc | hc
  · rw [tryStep_eq_true pi nx ny hc, broadcast_game] at h
    have h2 := refresh_terrain_mono _ a b ch hne1 hne2 h
    rw [mjMut_grid] at h2
    have h3 := gridSet_mono _ _ _ _ _ _ _ (hne2 pi) h2
    exact gridSet_mono _ _ _ _ _ _ _ hne1 h3
  · rw [tryStep_eq_false pi nx ny hc, broadcast_game] at h
    exact refresh_terrain_mono _ a b ch hne1 hne2 h

theorem mjStep_terrain_mono (w : World) (i : Fin 4) (jj : Bool) (d : Dir)
    (ch : Char) (hne1 : ch ≠ '.') (hne2 : ∀ m : Fin 4, ch ≠ markerChar m) (a b : Fin 5)
    (h : (mjStep i jj d w).game.grid a b = ch) : w.game.grid a b = ch := by
  cases jj <;> cases d <;>
    exact tryStep_terrain_mono w i _ _ _ ch hne1 hne2 a b h

theorem mjFold_terrain_mono (cs : List MJCmd) (w : World)
    (ch : Char) (hne1 : ch ≠ '.') (hne2 : ∀ m : Fin 4, ch ≠ markerChar m) (a b : Fin 5)
    (h : (mjFold cs w).game.grid a b = ch) : w.game.grid a b = ch := by
  induction cs generalizing w with
  | nil => exact h
  | cons c rest ih =>
    exact mjStep_terrain_mono w c.1 c.2.1 c.2.2 ch hne1 hne2 a b (ih _ h)

/-! ### What one ATTACK does to each slot -/

theorem hpChain_eq (p : Player) (ogx ogy : Int) :
    (if p.x = ogx - 1 ∧ p.y = ogy then p.hp - 10
     else if p.x = ogx + 1 ∧ p.y = ogy then p.hp - 10
     else if p.x = ogx ∧ p.y = ogy - 1 then p.hp - 10
     else if p.x = ogx ∧ p.y = ogy + 1 then p.hp - 10
     else p.hp) = if adjD p.x p.y ogx ogy then p.hp - 10 else p.hp := by
  unfold adjD
  by_cases h1 : p.x = ogx - 1 ∧ p.y = ogy <;>
    by_cases h2 : p.x = ogx + 1 ∧ p.y = ogy <;>
    by_cases h3 : p.x = ogx ∧ p.y = ogy - 1 <;>
    by_cases h4 : p.x = ogx ∧ p.y = ogy + 1 <;>
    simp [h1, h2, h3, h4]

theorem atkHp_chain (p : Player) (ogx ogy : Int) (hap : p.active = true ∧ p.hp > 0) :
    (if p.x = ogx - 1 ∧ p.y = ogy then p.hp - 10
     else if p.x = ogx + 1 ∧ p.y = ogy then p.hp - 10
     else if p.x = ogx ∧ p.y = ogy - 1 then p.hp - 10
     else if p.x = ogx ∧ p.y = ogy + 1 then p.hp - 10
     else p.hp) = atkHp p ogx ogy := by
  rw [hpChain_eq]
  unfold atkHp
  by_cases hadj : adjD p.x p.y ogx ogy <;> simp [hap.1, hap.2, hadj]

theorem attackVisit_effect (attacker : Fin 4) (ogx ogy : Int) (i : Fin 4) (w : World) :
    attackVisit attacker ogx ogy i w =
      { game :=
          { grid := w.game.grid
            players := Function.update w.game.players i
              (atkPlayer (w.game.players i) ogx ogy)
            clientCount := w.game.clientCount -
              (if atkDead (w.game.players i) ogx ogy then 1 else 0) }
        socks := if atkDead (w.game.players i) ogx ogy
          then Function.update w.socks i none else w.socks
        trace := w.trace ++
          (if atkDead (w.game.players i) ogx ogy ∧ w.socks i = some true
            then [(i, deathMsg attacker)] else []) } := by
  by_cases hap : (w.game.players i).active = true ∧ (w.game.players i).hp > 0
  · unfold attackVisit
    rw [if_pos hap]
    rw [atkHp_chain (w.game.players i) ogx ogy hap]
    dsimp only
    by_cases hdead2 : atkHp (w.game.players i) ogx ogy ≤ 0
    · have hdead : atkDead (w.game.players i) ogx ogy := ⟨hap.1, hap.2, hdead2⟩
      rw [if_pos hdead2]
      cases hsock : w.socks i with
      | none =>
        simp only [hsock]
        refine World.ext (GameState.ext rfl ?_ ?_) ?_ ?_ <;> dsimp only
        · rw [Function.update_idem, Function.update_same]
          unfold atkPlayer
          rw [if_pos hdead]
        · rw [if_pos hdead]
        · rw [if_pos hdead]
        · rw [if_neg (by simp : ¬(atkDead (w.game.players i) ogx ogy ∧
            (none : Option Channel) = some true))]
          exact (List.append_nil _).symm
      | some b =>
        cases b with
        | false =>
          simp only [hsock]
          refine World.ext (GameState.ext rfl ?_ ?_) ?_ ?_ <;> dsimp only
          · rw [Function.update_idem, Function.update_same]
            unfold atkPlayer
            rw [if_pos hdead]
          · rw [if_pos hdead]
          · rw [if_pos hdead]
          · rw [if_neg (by simp : ¬(atkDead (w.game.players i) ogx ogy ∧
              (some false : Option Channel) = some true))]
            exact (List.append_nil _).symm
        | true =>
          simp only [hsock]
          refine World.ext (GameState.ext rfl ?_ ?_) ?_ ?_ <;> dsimp only
          · rw [Function.update_idem, Function.update_same]
            unfold atkPlayer
            rw [if_pos hdead]
          · rw [if_pos hdead]
          · rw [if_pos hdead]
          · simp [hdead]
    · have hdead : ¬ atkDead (w.game.players i) ogx ogy := fun hd => hdead2 hd.2.2
      rw [if_neg hdead2]
      refine World.ext (GameState.ext rfl ?_ ?_) ?_ ?_ <;> dsimp only
      · unfold atkPlayer
        rw [if_neg hdead]
      · rw [if_neg hdead]
        omega
      · rw [if_neg hdead]
      · rw [if_neg (by tauto : ¬(atkDead (w.game.players i) ogx ogy ∧
          w.socks i = some true))]
        exact (List.append_nil _).symm
  · have hdead : ¬ atkDead (w.game.players i) ogx ogy := fun hd => hap ⟨hd.1, hd.2.1⟩
    have hhp : atkHp (w.game.players i) ogx ogy = (w.game.players i).hp := by
      unfold atkHp
      rw [if_neg (fun hc => hap ⟨hc.1, hc.2.1⟩)]
    unfold attackVisit
    rw [if_neg hap]
    refine World.ext (GameState.ext rfl ?_ ?_) ?_ ?_ <;> dsimp only
    · unfold atkPlayer
      rw [if_neg hdead, hhp, Function.update_eq_self]
    · rw [if_neg hdead]
      omega
    · rw [if_neg hdead]
    · rw [if_neg (by tauto : ¬(atkDead (w.game.players i) ogx ogy ∧
        w.socks i = some true))]
      exact (List.append_nil _).symm

theorem attackLoop_spec (attacker : Fin 4) (ogx ogy : Int) (L : List (Fin 4)) (hnd : L.Nodup)
    (w : World) :
    (attackLoop attacker ogx ogy L w).game.grid = w.game.grid ∧
    (∀ j : Fin 4, (attackLoop attacker ogx ogy L w).game.players j =
      if j ∈ L then atkPlayer (w.game.players j) ogx ogy else w.game.players j) ∧
    (attackLoop attacker ogx ogy L w).game.clientCount = w.game.clientCount -
      ((L.filter (fun j => decide (atkDead (w.game.players j) ogx ogy))).length : Int) ∧
    (∀ j : Fin 4, (attackLoop attacker ogx ogy L w).socks j =
      if j ∈ L ∧ atkDead (w.game.players j) ogx ogy then none else w.socks j) ∧
    (attackLoop attacker ogx ogy L w).trace = w.trace ++
      (L.filter (fun j => decide (atkDead (w.game.players j) ogx ogy ∧
        w.socks j = some true))).map (fun j => (j, deathMsg attacker)) := by
  induction L generalizing w with
  | nil =>
    exact ⟨rfl, fun j => by simp [attackLoop], by simp [attackLoop],
      fun j => by simp [attackLoop], by simp [attackLoop]⟩
  | cons k rest ih =>
    have hndr : rest.Nodup := hnd.of_cons
    have hkr : k ∉ rest := (List.nodup_cons.mp hnd).1
    have hmemr : ∀ j : Fin 4, j ∈ rest → j ≠ k := fun j hj he => hkr (he ▸ hj)
    have hstep : attackLoop attacker ogx ogy (k :: rest) w =
        attackLoop attacker ogx ogy rest (attackVisit attacker ogx ogy k w) := rfl
    rw [hstep, attackVisit_effect attacker ogx ogy k w]
    obtain ⟨ih1, ih2, ih3, ih4, ih5⟩ := ih hndr
      { game :=
          { grid := w.game.grid
            players := Function.update w.game.players k
              (atkPlayer (w.game.players k) ogx ogy)
            clientCount := w.game.clientCount -
              (if atkDead (w.game.players k) ogx ogy then 1 else 0) }
        socks := if atkDead (w.game.players k) ogx ogy
          then Function.update w.socks k none else w.socks
        trace := w.trace ++
          (if atkDead (w.game.players k) ogx ogy ∧ w.socks k = some true
            then [(k, deathMsg attacker)] else []) }
    have hpNe : ∀ j : Fin 4, j ≠ k →
        Function.update w.game.players k (atkPlayer (w.game.players k) ogx ogy) j =
          w.game.players j := fun j hj => Function.update_noteq hj _ _
    have hsNe : ∀ j : Fin 4, j ≠ k →
        (if atkDead (w.game.players k) ogx ogy
          then Function.update w.socks k none else w.socks) j = w.socks j := by
      intro j hj
      split
      · exact Function.update_noteq hj _ _
      · rfl
    refine ⟨?_, ?_, ?_, ?_, ?_⟩
    · rw [ih1]
    · intro j
      rw [ih2 j]
      dsimp only
      by_cases hjk : j = k
      · subst hjk
        simp [hkr, Function.update_same]
      · rw [hpNe j hjk]
        simp [List.mem_cons, hjk]
    · rw [ih3]
      dsimp only
      have hfc : rest.filter (fun j => decide (atkDead
          ((Function.update w.game.players k (atkPlayer (w.game.players k) ogx ogy)) j)
          ogx ogy)) =
          rest.filter (fun j => decide (atkDead (w.game.players j) ogx ogy)) := by
        apply List.filter_congr
        intro j hj
        rw [hpNe j (hmemr j hj)]
      rw [hfc, List.filter_cons]
      by_cases hdk : atkDead (w.game.players k) ogx ogy
      · rw [if_pos hdk, if_pos (show decide (atkDead (w.game.players k) ogx ogy) = true
          by simp [hdk])]
        simp only [List.length_cons]
        push_cast
        omega
      · rw [if_neg hdk, if_neg (show ¬ decide (atkDead (w.game.players k) ogx ogy) = true
          by simp [hdk])]
        omega
    · intro j
      rw [ih4 j]
      dsimp only
      by_cases hjk : j = k
      · subst hjk
        by_cases hdk : atkDead (w.game.players j) ogx ogy
        · simp [hkr, hdk, Function.update_same]
        · simp [hkr, hdk]
      · rw [hpNe j hjk, hsNe j hjk]
        simp [List.mem_cons, hjk]
    · rw [ih5]
      dsimp only
      have hfc : rest.filter (fun j => decide (atkDead
          ((Function.update w.game.players k (atkPlayer (w.game.players k) ogx ogy)) j)
          ogx ogy ∧
          (if atkDead (w.game.players k) ogx ogy
            then Function.update w.socks k none else w.socks) j = some true)) =
          rest.filter (fun j => decide (atkDead (w.game.players j) ogx ogy ∧
            w.socks j = some true)) := by
        apply List.filter_congr
        intro j hj
        rw [hpNe j (hmemr j hj), hsNe j (hmemr j hj)]
      rw [hfc, List.filter_cons]
      by_cases hck : atkDead (w.game.players k) ogx ogy ∧ w.socks k = some true
      · rw [if_pos hck, if_pos (show decide (atkDead (w.game.players k) ogx ogy ∧
          w.socks k = some true) = true by simp [hck.1, hck.2])]
        simp
      · rw [if_neg hck, if_neg (show ¬ decide (atkDead (w.game.players k) ogx ogy ∧
          w.socks k = some true) = true by simp [hck])]
        simp

/-! ### What the SAY delivery loop does -/

theorem sayLoop_spec (sender : Fin 4) (msg : String) (L : List (Fin 4)) (hnd : L.Nodup)
    (w : World) :
    (sayLoop sender msg L w).game = w.game ∧
    (sayLoop sender msg L w).trace = w.trace ++
      (L.filter (fun i => decide (i ≠ sender ∧ w.socks i = some true))).map
        (fun i => (i, msg)) ∧
    ∀ i : Fin 4, (sayLoop sender msg L w).socks i =
      if i ∈ L ∧ i ≠ sender ∧ w.socks i = some false then none else w.socks i := by
  induction L generalizing w with
  | nil =>
    exact ⟨rfl, by simp [sayLoop], fun i => by simp [sayLoop]⟩
  | cons j rest ih =>
    have hndr : rest.Nodup := hnd.of_cons
    have hjr : j ∉ rest := (List.nodup_cons.mp hnd).1
    by_cases hjs : j = sender
    · rw [show sayLoop sender msg (j :: rest) w =
        (if j = sender then sayLoop sender msg rest w else _) from rfl, if_pos hjs]
      obtain ⟨ihg, iht, ihs⟩ := ih hndr w
      refine ⟨ihg, ?_, fun i => ?_⟩
      · rw [iht, List.filter_cons]
        rw [if_neg (show ¬ decide (j ≠ sender ∧ w.socks j = some true) = true
          by simp [hjs])]
      · rw [ihs i]
        by_cases hij : i = j
        · subst hij
          simp [hjs, hjr]
        · simp [List.mem_cons, hij]
    · cases h : w.socks j with
      | none =>
        rw [show sayLoop sender msg (j :: rest) w =
          (if j = sender then _ else match w.socks j with
            | none => sayLoop sender msg rest w
            | some true => sayLoop sender msg rest
                { w with trace := w.trace ++ [(j, msg)] }
            | some false => sayLoop sender msg rest
                { w with socks := Function.update w.socks j none }) from rfl,
          if_neg hjs, h]
        obtain ⟨ihg, iht, ihs⟩ := ih hndr w
        refine ⟨ihg, ?_, fun i => ?_⟩
        · rw [iht, List.filter_cons]
          rw [if_neg (show ¬ decide (j ≠ sender ∧ w.socks j = some true) = true
            by simp [h])]
        · rw [ihs i]
          by_cases hij : i = j
          · subst hij
            simp [h]
          · simp [List.mem_cons, hij]
      | some b =>
        cases b with
        | true =>
          rw [show sayLoop sender msg (j :: rest) w =
            (if j = sender then _ else match w.socks j with
              | none => sayLoop sender msg rest w
              | some true => sayLoop sender msg rest
                  { w with trace := w.trace ++ [(j, msg)] }
              | some false => sayLoop sender msg rest
                  { w with socks := Function.update w.socks j none }) from rfl,
            if_neg hjs, h]
          obtain ⟨ihg, iht, ihs⟩ := ih hndr { w with trace := w.trace ++ [(j, msg)] }
          refine ⟨ihg, ?_, fun i => ?_⟩
          · rw [iht, List.filter_cons]
            rw [if_pos (show decide (j ≠ sender ∧ w.socks j = some true) = true
              by simp [hjs, h])]
            simp
          · rw [ihs i]
            by_cases hij : i = j
            · subst hij
              simp [h, hjr]
            · simp [List.mem_cons, hij]
        | false =>
          rw [show sayLoop sender msg (j :: rest) w =
            (if j = sender then _ else match w.socks j with
              | none => sayLoop sender msg rest w
              | some true => sayLoop sender msg rest
                  { w with trace := w.trace ++ [(j, msg)] }
              | some false => sayLoop sender msg rest
                  { w with socks := Function.update w.socks j none }) from rfl,
            if_neg hjs, h]
          obtain ⟨ihg, iht, ihs⟩ := ih hndr { w with socks := Function.update w.socks j none }
          refine ⟨ihg, ?_, fun i => ?_⟩
          · rw [iht, List.filter_cons]
            rw [if_neg (show ¬ decide (j ≠ sender ∧ w.socks j = some true) = true
              by simp [h])]
            have hfe : rest.filter
                (fun i => decide (i ≠ sender ∧
                  (Function.update w.socks j none) i = some true)) =
                rest.filter (fun i => decide (i ≠ sender ∧ w.socks i = some true)) := by
              apply List.filter_congr
              intro i hi
              have hij : i ≠ j := fun he => hjr (he ▸ hi)
              rw [Function.update_noteq hij]
            rw [hfe]
          · rw [ihs i]
            by_cases hij : i = j
            · subst hij
              simp [h, hjr, hjs, Function.update_same]
            · simp [Function.update_noteq hij, List.mem_cons, hij]

/-! ### Command strings for the movement branches -/

/-- The canonical wire form of a movement command. -/
def mjString (jj : Bool) (d : Dir) : String :=
  (if jj then "JUMP " else "MOVE ") ++ dirTok d

theorem dispatchSub_mj (jj : Bool) (d : Dir) :
    dispatchSub (mjString jj d) =
      (if jj then ParsedCmd.jump d else ParsedCmd.move d) := by
  cases jj <;> cases d <;> decide

theorem handleCommand_mj (i : Fin 4) (jj : Bool) (d : Dir) (w : World) :
    handleCommand i (mjString jj d) w = mjStep i jj d w := by
  unfold handleCommand mjStep
  rw [dispatchSub_mj]
  cases jj <;> rfl

/-! ### Concrete states used to exercise the theorems -/

/-- Build a world whose grid has just been refreshed from the initial
terrain and the given roster. -/
def demoWorld (ps : Fin 4 → Player) (cc : Int) (socks : Fin 4 → Option Channel) : World :=
  { game := refreshPlayerPositions { grid := initGrid, players := ps, clientCount := cc }
    socks := socks
    trace := [] }

/-- Players 0 and 1 connected at their start cells. -/
def wTwo : World :=
  demoWorld
    (fun i => if i = 0 then { x := 0, y := 0, hp := 100, active := true }
      else if i = 1 then { x := 1, y := 0, hp := 100, active := true }
      else { x := -1, y := -1, hp := 100, active := false })
    2 (fun i => if i.val < 2 then some true else none)

/-- Three connected players; player 1's channel is broken. -/
def wBroken : World :=
  demoWorld
    (fun i => if i = 0 then { x := 0, y := 0, hp := 100, active := true }
      else if i = 1 then { x := 1, y := 0, hp := 100, active := true }
      else if i = 2 then { x := 2, y := 0, hp := 100, active := true }
      else { x := -1, y := -1, hp := 100, active := false })
    3 (fun i => if i = 1 then some false else if i.val ≤ 2 then some true else none)

/-- An attacker at `(0,0)` next to a victim at `(0,1)` with 10 hp. -/
def wDuel : World :=
  demoWorld
    (fun i => if i = 0 then { x := 0, y := 0, hp := 100, active := true }
      else if i = 1 then { x := 0, y := 1, hp := 10, active := true }
      else { x := -1, y := -1, hp := 100, active := false })
    2 (fun i => if i.val < 2 then some true else none)

/-- A lone player one step above the pickup at `(3,1)`. -/
def wPickup : World :=
  demoWorld
    (fun i => if i = 0 then { x := 2, y := 1, hp := 100, active := true }
      else { x := -1, y := -1, hp := 100, active := false })
    1 (fun i => if i = 0 then some true else none)

/-- A lone player at `(1,0)`, free to move up. -/
def wLone : World :=
  demoWorld
    (fun i => if i = 0 then { x := 1, y := 0, hp := 100, active := true }
      else { x := -1, y := -1, hp := 100, active := false })
    1 (fun i => if i = 0 then some true else none)

/-- Player 0 connected; slot 2 free but with an accepted live channel. -/
def wJoin : World :=
  demoWorld
    (fun i => if i = 0 then { x := 0, y := 0, hp := 100, active := true }
      else { x := -1, y := -1, hp := 100, active := false })
    1 (fun i => if i = 0 then some true else if i = 2 then some true else none)

/-! ## The claims -/

/-- C10: After `initGameState`, the 5×5 grid has exactly one obstacle
`'#'` at `(2,2)` and exactly four pickups `'+'` at `(3,1)`, `(0,4)`,
`(1,3)` and `(2,3)` — cell `(1,3)`, first assigned an obstacle, ends up a
pickup because the assignment is overwritten — every other cell is `'.'`,
and all four player slots start at `x = y = -1` with `hp = 100` and
`active = false`, with `clientCount = 0`. -/
theorem claim_c10 :
    (∀ a b : Fin 5, initGameState.grid a b =
      (if a.val = 2 ∧ b.val = 2 then '#'
       else if (a.val = 3 ∧ b.val = 1) ∨ (a.val = 0 ∧ b.val = 4) ∨
         (a.val = 1 ∧ b.val = 3) ∨ (a.val = 2 ∧ b.val = 3) then '+' else '.')) ∧
    (∀ i : Fin 4, initGameState.players i =
      { x := -1, y := -1, hp := 100, active := false }) ∧
    initGameState.clientCount = 0 := by decide

/-- C1: evaluation of the `clientHandler` cleanup (the path taken on a
zero-length read or a transport error) at a state with two connected
players.  It deactivates the slot, clears the grid cell, frees the
registry slot, and broadcasts the refreshed state to the survivor — but
unlike the QUIT branch it leaves `clientCount` unchanged, so the claimed
occupant-count decrement does not happen. -/
theorem claim_c1 :
    ((clientCleanup 1 wTwo).game.players 1).active = false ∧
    gridGet (clientCleanup 1 wTwo).game.grid 1 0 = '.' ∧
    (clientCleanup 1 wTwo).socks 1 = none ∧
    (clientCleanup 1 wTwo).trace =
      [(0, buildStateString (clientCleanup 1 wTwo).game)] ∧
    (clientCleanup 1 wTwo).game.clientCount = 2 ∧
    (handleCommand 1 "QUIT" wTwo).game.clientCount = 1 := by decide

/-- C2 (amended): a broadcast leaves the game state untouched; it renders
the state once and appends that same text to the log of every live
channel in slot order; a broken channel is closed and its slot freed
without blocking the remaining deliveries; every other channel is left as
it was.  Slot deactivation and the occupant count are not touched by the
broadcast itself. -/
theorem claim_c2_amended (w : World) :
    (broadcastState w).game = w.game ∧
    (broadcastState w).trace = w.trace ++ broadcastEntries w.socks (buildStateString w.game) ∧
    (∀ i : Fin 4, w.socks i = some false → (broadcastState w).socks i = none) ∧
    (∀ i : Fin 4, w.socks i ≠ some false → (broadcastState w).socks i = w.socks i) := by
  refine ⟨broadcast_game w, broadcast_trace w, fun i h => ?_, fun i h => ?_⟩
  · rw [broadcast_socks w i, if_pos h]
  · rw [broadcast_socks w i, if_neg h]

theorem claim_c2_amended_witness :
    (broadcastState wBroken).game = wBroken.game ∧
    (broadcastState wBroken).socks 1 = none ∧
    (broadcastState wBroken).socks 0 = some true :=
  ⟨(claim_c2_amended wBroken).1,
    (claim_c2_amended wBroken).2.2.1 1 (by decide),
    (claim_c2_amended wBroken).2.2.2 0 (by decide)⟩

/-- C2, the claim as stated, is false: after a delivery failure for
session 1, the broadcast closes and frees that channel and still delivers
to sessions 0 and 2, but the slot is not deactivated and the occupant
count is not decremented. -/
theorem claim_c2_counterexample :
    (broadcastState wBroken).socks 1 = none ∧
    (broadcastState wBroken).trace =
      [(0, buildStateString wBroken.game), (2, buildStateString wBroken.game)] ∧
    ((broadcastState wBroken).game.players 1).active = true ∧
    (broadcastState wBroken).game.clientCount = 3 ∧
    ¬(((broadcastState wBroken).game.players 1).active = false ∧
      (broadcastState wBroken).game.clientCount = 3 - 1) := by decide

/-- C7 counterexample: on the input line `MOVE UPX` the implemented
substring dispatcher selects `MOVE UP` while the strict tokenizer
rejects the line, and the two produce different states. -/
theorem claim_c7_counterexample :
    dispatchSub "MOVE UPX" = ParsedCmd.move Dir.up ∧
    dispatchTok "MOVE UPX" = ParsedCmd.invalid ∧
    ((handleCommand 0 "MOVE UPX" wLone).game.players 0).x = 0 ∧
    ((handleCommandStrict 0 "MOVE UPX" wLone).game.players 0).x = 1 ∧
    ((handleCommand 0 "MOVE UPX" wLone).game.players 0).x ≠
      ((handleCommandStrict 0 "MOVE UPX" wLone).game.players 0).x := by decide

/-- On a line of the form `SAY <text>`, the substring dispatcher selects
the SAY branch with the split words after the keyword. -/
theorem dispatchSub_say (t : String) :
    dispatchSub ("SAY " ++ t) = ParsedCmd.say (pySplit t) := rfl

/-- On a line of the form `SAY <text>`, the strict tokenizer also selects
the SAY branch with the same word list. -/
theorem dispatchTok_say (t : String) :
    dispatchTok ("SAY " ++ t) = ParsedCmd.say (pySplit t) := rfl

/-- C7 (amended): the substring dispatcher and the strict tokenizer
select the same command, direction and word list — and hence produce the
same resulting state and replies — on every canonical command line
`MOVE <DIR>`, `JUMP <DIR>`, `ATTACK`, `QUIT` and `SAY <text>` (any
text); they differ on malformed lines such as `MOVE UPX`, so the
substitution is a refinement on every well-formed input line, not on
every input line. -/
theorem claim_c7_amended :
    (∀ d : Dir, dispatchSub ("MOVE " ++ dirTok d) = dispatchTok ("MOVE " ++ dirTok d) ∧
      dispatchSub ("JUMP " ++ dirTok d) = dispatchTok ("JUMP " ++ dirTok d)) ∧
    dispatchSub "ATTACK" = dispatchTok "ATTACK" ∧
    dispatchSub "QUIT" = dispatchTok "QUIT" ∧
    (∀ t : String, dispatchSub ("SAY " ++ t) = dispatchTok ("SAY " ++ t)) ∧
    (∀ (i : Fin 4) (w : World) (d : Dir) (t : String),
      handleCommand i ("MOVE " ++ dirTok d) w = handleCommandStrict i ("MOVE " ++ dirTok d) w ∧
      handleCommand i ("JUMP " ++ dirTok d) w = handleCommandStrict i ("JUMP " ++ dirTok d) w ∧
      handleCommand i "ATTACK" w = handleCommandStrict i "ATTACK" w ∧
      handleCommand i "QUIT" w = handleCommandStrict i "QUIT" w ∧
      handleCommand i ("SAY " ++ t) w = handleCommandStrict i ("SAY " ++ t) w) := by
  refine ⟨fun d => ⟨by cases d <;> decide, by cases d <;> decide⟩, by decide, by decide,
    fun t => (dispatchSub_say t).trans (dispatchTok_say t).symm,
    fun i w d t => ⟨?_, ?_, ?_, ?_, ?_⟩⟩
  · cases d <;> exact congrArg (fun pc => applyCmd pc i w) (by decide)
  · cases d <;> exact congrArg (fun pc => applyCmd pc i w) (by decide)
  · exact congrArg (fun pc => applyCmd pc i w) (by decide)
  · exact congrArg (fun pc => applyCmd pc i w) (by decide)
  · exact congrArg (fun pc => applyCmd pc i w)
      ((dispatchSub_say t).trans (dispatchTok_say t).symm)

/-- C3: for every `MOVE <dir>` or `JUMP <dir>` command with a recognized
direction issued by an active player in an invariant state, the move is
applied iff the destination (offset 1 for MOVE, 2 for JUMP) is in grid
bounds, not the obstacle, and not occupied by another active player; on
success the source cell is cleared, +5 hp is granted when the destination
held a pickup, the destination gets the mover's marker and the
coordinates are updated; on an illegal destination the game state is
entirely unchanged; in both cases the refreshed state is broadcast. -/
theorem claim_c3 (w : World) (i : Fin 4) (jj : Bool) (d : Dir) (nx ny : Int)
    (hInv : Inv w.game) (hact : (w.game.players i).active = true)
    (hx : nx = destX (w.game.players i) d (stepLen jj))
    (hy : ny = destY (w.game.players i) d (stepLen jj)) :
    (specLegal w.game i nx ny →
      (handleCommand i (mjString jj d) w).game.players = Function.update w.game.players i
        { w.game.players i with
          x := nx
          y := ny
          hp := (w.game.players i).hp +
            (if gridGet w.game.grid nx ny = '+' then 5 else 0) } ∧
      gridGet (handleCommand i (mjString jj d) w).game.grid nx ny = markerChar i ∧
      gridGet (handleCommand i (mjString jj d) w).game.grid
        (w.game.players i).x (w.game.players i).y = '.' ∧
      (handleCommand i (mjString jj d) w).game.clientCount = w.game.clientCount) ∧
    (¬ specLegal w.game i nx ny → (handleCommand i (mjString jj d) w).game = w.game) ∧
    (handleCommand i (mjString jj d) w).trace =
      w.trace ++ broadcastEntries w.socks
        (buildStateString (handleCommand i (mjString jj d) w).game) := by
  subst hx
  subst hy
  rw [handleCommand_mj]
  have heff := mj_effect w i jj d hInv hact
  exact ⟨heff.1, heff.2.1, heff.2.2.1⟩

theorem claim_c3_witness :
    (handleCommand 0 (mjString false Dir.right) wTwo).game.players 0 =
      { x := 0, y := 1, hp := 100, active := true } := by
  have h := (claim_c3 wTwo 0 false Dir.right 0 1 (by decide) (by decide)
    (by decide) (by decide)).1 (by decide)
  rw [h.1]
  decide

/-- C5: a legal MOVE or JUMP onto a pickup cell raises the mover's hp by
exactly 5 and consumes the pickup: the cell then shows the mover's
marker, never again shows `'+'` under any further movement commands,
renders as `'.'` whenever no active player stands on it, and any later
legal entry onto that same cell leaves the entrant's hp unchanged. -/
theorem claim_c5 (w : World) (i : Fin 4) (jj : Bool) (d : Dir) (nx ny : Int)
    (hInv : Inv w.game) (hact : (w.game.players i).active = true)
    (hx : nx = destX (w.game.players i) d (stepLen jj))
    (hy : ny = destY (w.game.players i) d (stepLen jj))
    (hleg : specLegal w.game i nx ny)
    (hplus : gridGet w.game.grid nx ny = '+') :
    ((handleCommand i (mjString jj d) w).game.players i).hp = (w.game.players i).hp + 5 ∧
    gridGet (handleCommand i (mjString jj d) w).game.grid nx ny = markerChar i ∧
    (∀ cs : List MJCmd,
      gridGet (mjFold cs (handleCommand i (mjString jj d) w)).game.grid nx ny ≠ '+') ∧
    (∀ cs : List MJCmd,
      (∀ j : Fin 4,
        ((mjFold cs (handleCommand i (mjString jj d) w)).game.players j).active = true →
        ¬(((mjFold cs (handleCommand i (mjString jj d) w)).game.players j).x = nx ∧
          ((mjFold cs (handleCommand i (mjString jj d) w)).game.players j).y = ny)) →
      gridGet (mjFold cs (handleCommand i (mjString jj d) w)).game.grid nx ny = '.') ∧
    (∀ (cs : List MJCmd) (j : Fin 4) (jj2 : Bool) (d2 : Dir),
      ((mjFold cs (handleCommand i (mjString jj d) w)).game.players j).active = true →
      destX ((mjFold cs (handleCommand i (mjString jj d) w)).game.players j) d2 (stepLen jj2)
        = nx →
      destY ((mjFold cs (handleCommand i (mjString jj d) w)).game.players j) d2 (stepLen jj2)
        = ny →
      specLegal (mjFold cs (handleCommand i (mjString jj d) w)).game j nx ny →
      ((mjStep j jj2 d2 (mjFold cs (handleCommand i (mjString jj d) w))).game.players j).hp =
        ((mjFold cs (handleCommand i (mjString jj d) w)).game.players j).hp) := by
  subst hx
  subst hy
  rw [handleCommand_mj]
  have heff := mj_effect w i jj d hInv hact
  have hmain := heff.1 hleg
  have hWinv : Inv (mjStep i jj d w).game := heff.2.2.2.2
  obtain ⟨hnx0, hnx5, hny0, hny5⟩ := hleg.1
  have hmark : (mjStep i jj d w).game.grid
      ⟨(destX (w.game.players i) d (stepLen jj)).toNat, by omega⟩
      ⟨(destY (w.game.players i) d (stepLen jj)).toNat, by omega⟩ = markerChar i := by
    have := hmain.2.1
    rwa [gridGet_of_bounds _ hnx0 hnx5 hny0 hny5] at this
  have hnp : ∀ cs : List MJCmd,
      gridGet (mjFold cs (mjStep i jj d w)).game.grid
        (destX (w.game.players i) d (stepLen jj))
        (destY (w.game.players i) d (stepLen jj)) ≠ '+' := by
    intro cs hplus2
    rw [gridGet_of_bounds _ hnx0 hnx5 hny0 hny5] at hplus2
    have := mjFold_terrain_mono cs (mjStep i jj d w) '+' (by decide)
      (fun m => (markerChar_ne_plus m).symm) _ _ hplus2
    rw [hmark] at this
    exact markerChar_ne_plus i this
  refine ⟨?_, hmain.2.1, hnp, ?_, ?_⟩
  · rw [hmain.1, Function.update_same]
    show (w.game.players i).hp + (if gridGet w.game.grid _ _ = '+' then 5 else 0) = _
    rw [if_pos hplus]
  · intro cs hnoact
    have hInv2 : Inv (mjFold cs (mjStep i jj d w)).game := mjFold_inv cs _ hWinv
    rw [gridGet_of_bounds _ hnx0 hnx5 hny0 hny5]
    rcases hInv2.2.2 ⟨(destX (w.game.players i) d (stepLen jj)).toNat, by omega⟩
        ⟨(destY (w.game.players i) d (stepLen jj)).toNat, by omega⟩ with h | h | h | ⟨m, h⟩
    · exact h
    · exfalso
      apply hnp cs
      rw [gridGet_of_bounds _ hnx0 hnx5 hny0 hny5]
      exact h
    · exfalso
      have := mjFold_terrain_mono cs (mjStep i jj d w) '#' (by decide)
        (fun m => (markerChar_ne_hash m).symm) _ _ h
      rw [hmark] at this
      exact markerChar_ne_hash i this
    · exfalso
      have hm := hInv2.2.1 _ _ m h
      apply hnoact m hm.1
      constructor
      · rw [hm.2.1]
        exact int_fin_coe hnx0 hnx5
      · rw [hm.2.2]
        exact int_fin_coe hny0 hny5
  · intro cs j jj2 d2 hact2 hdx hdy hleg2
    have hInv2 : Inv (mjFold cs (mjStep i jj d w)).game := mjFold_inv cs _ hWinv
    have hleg3 : specLegal (mjFold cs (mjStep i jj d w)).game j
        (destX ((mjFold cs (mjStep i jj d w)).game.players j) d2 (stepLen jj2))
        (destY ((mjFold cs (mjStep i jj d w)).game.players j) d2 (stepLen jj2)) := by
      rw [hdx, hdy]
      exact hleg2
    have h2 := (mj_effect (mjFold cs (mjStep i jj d w)) j jj2 d2 hInv2 hact2).1 hleg3
    rw [h2.1, Function.update_same]
    show ((mjFold cs (mjStep i jj d w)).game.players j).hp +
      (if gridGet (mjFold cs (mjStep i jj d w)).game.grid _ _ = '+' then 5 else 0) = _
    rw [hdx, hdy, if_neg (hnp cs)]
    omega

theorem claim_c5_witness :
    ((handleCommand 0 (mjString false Dir.down) wPickup).game.players 0).hp = 105 := by
  have h := claim_c5 wPickup 0 false Dir.down 3 1 (by decide) (by decide)
    (by decide) (by decide) (by decide) (by decide)
  rw [h.1]
  decide

/-- A world with a leftover marker: the slot-2 occupant departed leaving
its `'C'` mark at `(4,4)` on the grid, the slot's registry entry already
holds a fresh live connection, and player 0 is still in the game. -/
def wStale : World :=
  { game :=
      { grid := gridSet initGrid 4 4 (markerChar 2)
        players := fun j => if j = 0 then { x := 0, y := 0, hp := 100, active := true }
          else { x := -1, y := -1, hp := 100, active := false }
        clientCount := 2 }
    socks := fun j => if j = 0 then some true else if j = 2 then some true else none
    trace := [] }

/-- C8: a connection granted slot `i` — including a slot freed by a
previous player's departure — starts fresh: the slot's player is set to
the start cell `(i, 0)` with full hp and the active flag; the literal
`READY` line is delivered to that client, immediately followed by the
full state broadcast; and every marker the broadcast state's grid shows
sits at the current cell of a player active in it — so a departed
previous occupant's leftover marker, which marks a cell its slot's new
owner does not stand on, is never rendered. -/
theorem claim_c8 (w : World) (i : Fin 4) (hlive : w.socks i = some true)
    (hb : ∀ j : Fin 4, (w.game.players j).active = true →
      inB (w.game.players j).x (w.game.players j).y) :
    (clientJoin i w).game.players i =
      { x := (i.val : Int), y := 0, hp := 100, active := true } ∧
    (clientJoin i w).trace = w.trace ++ [(i, "READY\n")] ++
      broadcastEntries w.socks (buildStateString (clientJoin i w).game) ∧
    (∀ a b : Fin 5, ∀ m : Fin 4, (clientJoin i w).game.grid a b = markerChar m →
      ((clientJoin i w).game.players m).active = true ∧
      ((clientJoin i w).game.players m).x = (a : Int) ∧
      ((clientJoin i w).game.players m).y = (b : Int)) := by
  refine ⟨?_, clientJoin_trace_live i w hlive, ?_⟩
  · rw [clientJoin_players, Function.update_same]
    rfl
  · intro a b m h
    rw [clientJoin_game] at h
    have hbm : ((Function.update w.game.players i (joinPayload i)) m).active = true →
        inB ((Function.update w.game.players i (joinPayload i)) m).x
          ((Function.update w.game.players i (joinPayload i)) m).y := by
      intro hact2
      by_cases hm : m = i
      · subst hm
        rw [Function.update_same]
        simp only [joinPayload, inB]
        have hlt := m.isLt
        exact ⟨by omega, by omega, by omega, by omega⟩
      · rw [Function.update_noteq hm] at hact2 ⊢
        exact hb m hact2
    have hpos := refresh_marker_pos _ a b m hbm h
    rw [clientJoin_players]
    exact hpos

theorem claim_c8_witness :
    wStale.game.grid 4 4 = markerChar 2 ∧
    (clientJoin 2 wStale).game.players 2 = { x := 2, y := 0, hp := 100, active := true } ∧
    (clientJoin 2 wStale).game.grid 4 4 ≠ markerChar 2 := by
  obtain ⟨h1, h2, h3⟩ := claim_c8 wStale 2 (by decide) (by decide)
  refine ⟨by decide, h1, fun hc => ?_⟩
  have hm := (h3 4 4 2 hc).2.1
  rw [h1] at hm
  exact absurd hm (by decide)

/-- C6 counterexample: the chat line the server delivers for
`SAY hi there` from player 0 is `SAY Player0: hithere` — it carries a
`SAY ` prefix on the wire and drops the spaces between the words — not
the claimed `Player0: hi there`. -/
theorem claim_c6_counterexample :
    dispatchSub "SAY hi there" = ParsedCmd.say ["hi", "there"] ∧
    sayMsg 0 ["hi", "there"] = "SAY Player0: hithere" ∧
    (1, "SAY Player0: hithere") ∈ (handleCommand 0 "SAY hi there" wTwo).trace ∧
    ¬((1, "Player0: hi there") ∈ (handleCommand 0 "SAY hi there" wTwo).trace) := by decide

/-- C6 (amended): a `SAY` command whose parsed word list is `ws` mutates
nothing in the game state (positions, hp, active flags, grid and count
all unchanged); every other session with a live channel — and never the
sender — receives the chat line `SAY Player<i>: ` followed by the words
of the text concatenated without separators (the client strips the
`SAY ` prefix before display); a delivery failure closes that session's
channel; and a state broadcast to all sessions follows the chat
delivery. -/
theorem claim_c6_amended (w : World) (pi : Fin 4) (cmd : String) (ws : List String)
    (hdisp : dispatchSub cmd = ParsedCmd.say ws) (hInv : Inv w.game) :
    (handleCommand pi cmd w).game = w.game ∧
    (handleCommand pi cmd w).trace = w.trace ++
      (([0, 1, 2, 3] : List (Fin 4)).filter
        (fun j => decide (j ≠ pi ∧ w.socks j = some true))).map
        (fun j => (j, sayMsg pi ws)) ++
      broadcastEntries
        (fun j => if j ≠ pi ∧ w.socks j = some false then none else w.socks j)
        (buildStateString w.game) := by
  unfold handleCommand
  rw [hdisp]
  obtain ⟨ihg, iht, ihs⟩ := sayLoop_spec pi (sayMsg pi ws) [0, 1, 2, 3] (by decide) w
  have hsocks : (sayLoop pi (sayMsg pi ws) [0, 1, 2, 3] w).socks =
      (fun j => if j ≠ pi ∧ w.socks j = some false then none else w.socks j) := by
    funext j
    rw [ihs j]
    have hmem : j ∈ ([0, 1, 2, 3] : List (Fin 4)) := by fin_cases j <;> decide
    by_cases hc : j ≠ pi ∧ w.socks j = some false
    · rw [if_pos ⟨hmem, hc.1, hc.2⟩, if_pos hc]
    · rw [if_neg (by tauto), if_neg hc]
  have hg1 : refreshPlayerPositions (sayLoop pi (sayMsg pi ws) [0, 1, 2, 3] w).game
      = w.game := by
    rw [ihg, refresh_id hInv]
  constructor
  · show (broadcastState _).game = w.game
    rw [broadcast_game]
    exact hg1
  · show (broadcastState _).trace = _
    rw [broadcast_trace]
    dsimp only
    rw [iht, hsocks, hg1]

theorem claim_c6_amended_witness :
    (handleCommand 0 "SAY hi there" wTwo).game = wTwo.game ∧
    (1, sayMsg 0 ["hi", "there"]) ∈ (handleCommand 0 "SAY hi there" wTwo).trace := by
  have h := claim_c6_amended wTwo 0 "SAY hi there" ["hi", "there"] (by decide) (by decide)
  refine ⟨h.1, ?_⟩
  rw [h.2]
  decide

/-- C9: starting from the freshly initialised game joined by any
sequence of slots and applying any sequence of MOVE and JUMP commands,
every active player's coordinates stay within the 5×5 bounds, its cell
is never the obstacle, and no two distinct active players ever share a
cell. -/
theorem claim_c9 (ks : List (Fin 4)) (cs : List MJCmd) (i : Fin 4)
    (hact : ((mjFold cs (joinAll ks initWorld)).game.players i).active = true) :
    (0 ≤ ((mjFold cs (joinAll ks initWorld)).game.players i).x ∧
      ((mjFold cs (joinAll ks initWorld)).game.players i).x < 5 ∧
      0 ≤ ((mjFold cs (joinAll ks initWorld)).game.players i).y ∧
      ((mjFold cs (joinAll ks initWorld)).game.players i).y < 5) ∧
    gridGet (mjFold cs (joinAll ks initWorld)).game.grid
      ((mjFold cs (joinAll ks initWorld)).game.players i).x
      ((mjFold cs (joinAll ks initWorld)).game.players i).y ≠ '#' ∧
    (∀ j : Fin 4, j ≠ i →
      ((mjFold cs (joinAll ks initWorld)).game.players j).active = true →
      ¬(((mjFold cs (joinAll ks initWorld)).game.players j).x =
          ((mjFold cs (joinAll ks initWorld)).game.players i).x ∧
        ((mjFold cs (joinAll ks initWorld)).game.players j).y =
          ((mjFold cs (joinAll ks initWorld)).game.players i).y)) := by
  have hJ : J (joinAll ks initWorld).game := joinAll_J ks initWorld J_init
  have hInv : Inv (mjFold cs (joinAll ks initWorld)).game := mjFold_inv cs _ hJ.1
  have h1 := hInv.1 i hact
  refine ⟨h1.1, ?_, ?_⟩
  · rw [h1.2.2]
    exact markerChar_ne_hash i
  · intro j hj hactj hpos
    exact hj (Inv_distinct hInv j i hactj hact hpos.1 hpos.2)

/-- The state reached in the witness scenario for the movement safety
property. -/
def wNine : World := mjFold [((0 : Fin 4), false, Dir.right)] (joinAll [0, 1] initWorld)

/-! ### The ATTACK branch, visit by visit, with its crash path -/

theorem atkPlayer_hp (p : Player) (ogx ogy : Int) :
    (atkPlayer p ogx ogy).hp = atkHp p ogx ogy := by
  unfold atkPlayer
  split <;> rfl

theorem atkPlayer_active_dead (p : Player) (ogx ogy : Int) (h : atkDead p ogx ogy) :
    (atkPlayer p ogx ogy).active = false := by
  unfold atkPlayer
  rw [if_pos h]

theorem atkPlayer_active_live (p : Player) (ogx ogy : Int) (h : ¬ atkDead p ogx ogy) :
    (atkPlayer p ogx ogy).active = p.active := by
  unfold atkPlayer
  rw [if_neg h]

/-- In an invariant state, a visit of the ATTACK loop issued by slot `i`
kills slot `j` exactly when `j` holds another active player adjacent to
the attacker with at most 10 hp. -/
theorem atkDead_spec_iff (w : World) (i : Fin 4) (hInv : Inv w.game) (j : Fin 4) :
    atkDead (w.game.players j) (w.game.players i).x (w.game.players i).y ↔
      (j ≠ i ∧ (w.game.players j).active = true ∧
        adjD (w.game.players j).x (w.game.players j).y
          (w.game.players i).x (w.game.players i).y ∧
        (w.game.players j).hp ≤ 10) := by
  unfold atkDead atkHp
  by_cases hji : j = i
  · subst hji
    have hadj : ¬ adjD (w.game.players j).x (w.game.players j).y
        (w.game.players j).x (w.game.players j).y := by
      unfold adjD; omega
    constructor
    · rintro ⟨h1, h2, h3⟩
      rw [if_neg (fun hc => hadj hc.2.2)] at h3
      omega
    · rintro ⟨hne, _⟩
      exact absurd rfl hne
  · by_cases hadj : adjD (w.game.players j).x (w.game.players j).y
        (w.game.players i).x (w.game.players i).y
    · constructor
      · rintro ⟨h1, h2, h3⟩
        rw [if_pos ⟨h1, h2, hadj⟩] at h3
        exact ⟨hji, h1, hadj, by omega⟩
      · rintro ⟨_, h1, _, h4⟩
        have h2 : (w.game.players j).hp > 0 := (hInv.1 j h1).2.1
        refine ⟨h1, h2, ?_⟩
        rw [if_pos ⟨h1, h2, hadj⟩]
        omega
    · constructor
      · rintro ⟨h1, h2, h3⟩
        rw [if_neg (fun hc => hadj hc.2.2)] at h3
        omega
      · rintro ⟨_, _, hadj2, _⟩
        exact absurd hadj2 hadj

/-- In an invariant state, the hp a visit leaves equals the original hp
minus 10 exactly for another active player adjacent to the attacker. -/
theorem atkHp_spec_eq (w : World) (i : Fin 4) (hInv : Inv w.game) (j : Fin 4) :
    atkHp (w.game.players j) (w.game.players i).x (w.game.players i).y =
      (w.game.players j).hp -
        (if j ≠ i ∧ (w.game.players j).active = true ∧
            adjD (w.game.players j).x (w.game.players j).y
              (w.game.players i).x (w.game.players i).y then 10 else 0) := by
  unfold atkHp
  by_cases hji : j = i
  · subst hji
    have hadj : ¬ adjD (w.game.players j).x (w.game.players j).y
        (w.game.players j).x (w.game.players j).y := by
      unfold adjD; omega
    rw [if_neg (fun hc => hadj hc.2.2), if_neg (by tauto)]
    omega
  · by_cases hc : (w.game.players j).active = true ∧
        adjD (w.game.players j).x (w.game.players j).y
          (w.game.players i).x (w.game.players i).y
    · have hhp0 : (w.game.players j).hp > 0 := (hInv.1 j hc.1).2.1
      rw [if_pos ⟨hc.1, hhp0, hc.2⟩, if_pos ⟨hji, hc.1, hc.2⟩]
    · rw [if_neg (by tauto), if_neg (by tauto)]
      omega

/-- When no listed slot dies while its socket entry is `None`, the ATTACK
loop returns normally with the state the plain loop computes. -/
theorem attackLoopE_ok (attacker : Fin 4) (ogx ogy : Int) (L : List (Fin 4)) (hnd : L.Nodup)
    (w : World)
    (h : ∀ j ∈ L, ¬(atkDead (w.game.players j) ogx ogy ∧ w.socks j = none)) :
    attackLoopE attacker ogx ogy L w = Outcome.ok (attackLoop attacker ogx ogy L w) := by
  induction L generalizing w with
  | nil => rfl
  | cons k rest ih =>
    have hk : ¬(atkDead (w.game.players k) ogx ogy ∧ w.socks k = none) :=
      h k (List.mem_cons_self k rest)
    have hstepE : attackVisitE attacker ogx ogy k w =
        Outcome.ok (attackVisit attacker ogx ogy k w) := by
      simp only [attackVisitE]
      rw [if_neg hk]
    have hpne : ∀ j : Fin 4, j ≠ k →
        (attackVisit attacker ogx ogy k w).game.players j = w.game.players j := by
      intro j hj
      rw [attackVisit_effect]
      exact Function.update_noteq hj _ _
    have hsne : ∀ j : Fin 4, j ≠ k →
        (attackVisit attacker ogx ogy k w).socks j = w.socks j := by
      intro j hj
      rw [attackVisit_effect]
      dsimp only
      by_cases hdk : atkDead (w.game.players k) ogx ogy
      · rw [if_pos hdk, Function.update_noteq hj]
      · rw [if_neg hdk]
    have hrest : ∀ j ∈ rest,
        ¬(atkDead ((attackVisit attacker ogx ogy k w).game.players j) ogx ogy ∧
          (attackVisit attacker ogx ogy k w).socks j = none) := by
      intro j hj
      have hjk : j ≠ k := fun he => (List.nodup_cons.mp hnd).1 (he ▸ hj)
      rw [hpne j hjk, hsne j hjk]
      exact h j (List.mem_cons_of_mem k hj)
    show (match attackVisitE attacker ogx ogy k w with
      | .ok w1 => attackLoopE attacker ogx ogy rest w1
      | r => r) = _
    rw [hstepE]
    show attackLoopE attacker ogx ogy rest (attackVisit attacker ogx ogy k w) = _
    rw [ih (List.Nodup.of_cons hnd) _ hrest]
    rfl

/-- The state the ATTACK loop has reached when the visit of slot `k`
raises: the slots of `L1` fully visited, and slot `k` holding only its
new hp. -/
def crashWorld (attacker : Fin 4) (ogx ogy : Int) (L1 : List (Fin 4)) (k : Fin 4)
    (w : World) : World :=
  let w1 := attackLoop attacker ogx ogy L1 w
  let php : Player := { w.game.players k with hp := atkHp (w.game.players k) ogx ogy }
  { w1 with game := { w1.game with players := Function.update w1.game.players k php } }

/-- When the slots of `L1` are visited without incident and then slot `k`
dies while its socket entry is `None`, the ATTACK loop raises, leaving
the crash state. -/
theorem attackLoopE_crash (attacker : Fin 4) (ogx ogy : Int) (L1 : List (Fin 4)) (k : Fin 4)
    (L2 : List (Fin 4)) (hnd : (L1 ++ k :: L2).Nodup) (w : World)
    (hok : ∀ j ∈ L1, ¬(atkDead (w.game.players j) ogx ogy ∧ w.socks j = none))
    (hk : atkDead (w.game.players k) ogx ogy ∧ w.socks k = none) :
    attackLoopE attacker ogx ogy (L1 ++ k :: L2) w =
      Outcome.died (crashWorld attacker ogx ogy L1 k w) := by
  induction L1 generalizing w with
  | nil =>
    have hstepE : attackVisitE attacker ogx ogy k w =
        Outcome.died (crashWorld attacker ogx ogy [] k w) := by
      simp only [attackVisitE, crashWorld, attackLoop]
      rw [if_pos hk]
    show (match attackVisitE attacker ogx ogy k w with
      | .ok w1 => attackLoopE attacker ogx ogy L2 w1
      | r => r) = _
    rw [hstepE]
  | cons a L1' ih =>
    have ha : ¬(atkDead (w.game.players a) ogx ogy ∧ w.socks a = none) :=
      hok a (List.mem_cons_self a L1')
    have hanotin : a ∉ L1' ++ k :: L2 := (List.nodup_cons.mp hnd).1
    have hak : a ≠ k := by
      intro he
      exact hanotin (by rw [he]; exact List.mem_append_right _ (List.mem_cons_self k L2))
    have hstepE : attackVisitE attacker ogx ogy a w =
        Outcome.ok (attackVisit attacker ogx ogy a w) := by
      simp only [attackVisitE]
      rw [if_neg ha]
    have hpne : ∀ j : Fin 4, j ≠ a →
        (attackVisit attacker ogx ogy a w).game.players j = w.game.players j := by
      intro j hj
      rw [attackVisit_effect]
      exact Function.update_noteq hj _ _
    have hsne : ∀ j : Fin 4, j ≠ a →
        (attackVisit attacker ogx ogy a w).socks j = w.socks j := by
      intro j hj
      rw [attackVisit_effect]
      dsimp only
      by_cases hda : atkDead (w.game.players a) ogx ogy
      · rw [if_pos hda, Function.update_noteq hj]
      · rw [if_neg hda]
    have hok' : ∀ j ∈ L1',
        ¬(atkDead ((attackVisit attacker ogx ogy a w).game.players j) ogx ogy ∧
          (attackVisit attacker ogx ogy a w).socks j = none) := by
      intro j hj
      have hja : j ≠ a := fun he => hanotin (he ▸ List.mem_append_left _ hj)
      rw [hpne j hja, hsne j hja]
      exact hok j (List.mem_cons_of_mem a hj)
    have hk' : atkDead ((attackVisit attacker ogx ogy a w).game.players k) ogx ogy ∧
        (attackVisit attacker ogx ogy a w).socks k = none := by
      rw [hpne k (Ne.symm hak), hsne k (Ne.symm hak)]
      exact hk
    show (match attackVisitE attacker ogx ogy a w with
      | .ok w1 => attackLoopE attacker ogx ogy (L1' ++ k :: L2) w1
      | r => r) = _
    rw [hstepE]
    show attackLoopE attacker ogx ogy (L1' ++ k :: L2) (attackVisit attacker ogx ogy a w) = _
    rw [ih (List.Nodup.of_cons hnd) _ hok' hk']
    show Outcome.died (crashWorld attacker ogx ogy L1' k (attackVisit attacker ogx ogy a w)) = _
    simp only [crashWorld]
    rw [hpne k (Ne.symm hak)]
    rfl

/-- Filtering the full slot list on a property conjoined with `j < k`
comes to filtering the prefix before `k` on the property alone. -/
theorem filter_lt_decomp (L1 : List (Fin 4)) (k : Fin 4) (L2 : List (Fin 4))
    (hdecomp : ([0, 1, 2, 3] : List (Fin 4)) = L1 ++ k :: L2)
    (hnd : (L1 ++ k :: L2).Nodup)
    (hmemL1 : ∀ j : Fin 4, j ∈ L1 ↔ j < k)
    (p : Fin 4 → Prop) [DecidablePred p] :
    (([0, 1, 2, 3] : List (Fin 4)).filter (fun j => decide (j < k ∧ p j))) =
      L1.filter (fun j => decide (p j)) := by
  rw [hdecomp, List.filter_append]
  have h1 : L1.filter (fun j => decide (j < k ∧ p j)) = L1.filter (fun j => decide (p j)) :=
    List.filter_congr (fun j hj => decide_eq_decide.mpr (and_iff_right ((hmemL1 j).mp hj)))
  have h2 : (k :: L2).filter (fun j => decide (j < k ∧ p j)) = [] := by
    apply List.filter_eq_nil_iff.mpr
    intro j hj
    apply Bool.not_eq_true _ |>.mpr
    apply decide_eq_false
    rintro ⟨hlt, _⟩
    have hdisj := (List.nodup_append.mp hnd).2.2
    exact hdisj ((hmemL1 j).mpr hlt) hj
  rw [h1, h2, List.append_nil]

/-- What an ATTACK issued by slot `i` does when the loop crashes at slot
`k`: the slots of the prefix `L1` are fully processed, slot `k` keeps
only the hp subtraction, and nothing after the loop runs. -/
theorem attackCrash_spec (w : World) (i : Fin 4) (hInv : Inv w.game)
    (L1 : List (Fin 4)) (k : Fin 4) (L2 : List (Fin 4))
    (hdecomp : ([0, 1, 2, 3] : List (Fin 4)) = L1 ++ k :: L2)
    (hnd : (L1 ++ k :: L2).Nodup)
    (hmemL1 : ∀ j : Fin 4, j ∈ L1 ↔ j < k)
    (hkA : atkDead (w.game.players k) (w.game.players i).x (w.game.players i).y)
    (hk2 : w.socks k = none)
    (hokLt : ∀ j : Fin 4, j < k →
      ¬(atkDead (w.game.players j) (w.game.players i).x (w.game.players i).y ∧
        w.socks j = none)) :
    (∀ j : Fin 4,
      ((handleCommand i "ATTACK" w).game.players j).hp = (w.game.players j).hp -
        (if j ≤ k ∧ (j ≠ i ∧ (w.game.players j).active = true ∧
            adjD (w.game.players j).x (w.game.players j).y
              (w.game.players i).x (w.game.players i).y) then 10 else 0)) ∧
    (∀ j : Fin 4, (((handleCommand i "ATTACK" w).game.players j).active = true ↔
      ((w.game.players j).active = true ∧ ¬(j < k ∧ (j ≠ i ∧
        (w.game.players j).active = true ∧
        adjD (w.game.players j).x (w.game.players j).y
          (w.game.players i).x (w.game.players i).y ∧
        (w.game.players j).hp ≤ 10))))) ∧
    (handleCommand i "ATTACK" w).game.grid = w.game.grid ∧
    (handleCommand i "ATTACK" w).game.clientCount = w.game.clientCount -
      ((([0, 1, 2, 3] : List (Fin 4)).filter (fun j => decide (j < k ∧ (j ≠ i ∧
        (w.game.players j).active = true ∧
        adjD (w.game.players j).x (w.game.players j).y
          (w.game.players i).x (w.game.players i).y ∧
        (w.game.players j).hp ≤ 10)))).length : Int) ∧
    (∀ j : Fin 4, (handleCommand i "ATTACK" w).socks j =
      if j < k ∧ (j ≠ i ∧ (w.game.players j).active = true ∧
        adjD (w.game.players j).x (w.game.players j).y
          (w.game.players i).x (w.game.players i).y ∧
        (w.game.players j).hp ≤ 10) then none else w.socks j) ∧
    (handleCommand i "ATTACK" w).trace = w.trace ++
      (([0, 1, 2, 3] : List (Fin 4)).filter (fun j => decide (j < k ∧ ((j ≠ i ∧
        (w.game.players j).active = true ∧
        adjD (w.game.players j).x (w.game.players j).y
          (w.game.players i).x (w.game.players i).y ∧
        (w.game.players j).hp ≤ 10) ∧
        w.socks j = some true)))).map (fun j => (j, deathMsg i)) ∧
    applyCmdE ParsedCmd.attack i w = Outcome.died (handleCommand i "ATTACK" w) := by
  have hdead_iff := atkDead_spec_iff w i hInv
  have hhp_eq := atkHp_spec_eq w i hInv
  have hok : ∀ j ∈ L1,
      ¬(atkDead (w.game.players j) (w.game.players i).x (w.game.players i).y ∧
        w.socks j = none) :=
    fun j hj => hokLt j ((hmemL1 j).mp hj)
  have hnd1 : L1.Nodup := (List.nodup_append.mp hnd).1
  have hE := attackLoopE_crash i (w.game.players i).x (w.game.players i).y L1 k L2 hnd w
    hok ⟨hkA, hk2⟩
  have hAE : applyCmdE ParsedCmd.attack i w =
      Outcome.died (crashWorld i (w.game.players i).x (w.game.players i).y L1 k w) := by
    show attackActionE i w = _
    simp only [attackActionE]
    rw [hdecomp, hE]
  have hrw : handleCommand i "ATTACK" w =
      crashWorld i (w.game.players i).x (w.game.players i).y L1 k w := by
    show applyCmd (dispatchSub "ATTACK") i w = _
    rw [show dispatchSub "ATTACK" = ParsedCmd.attack from by decide]
    show (applyCmdE ParsedCmd.attack i w).world = _
    rw [hAE]
    rfl
  obtain ⟨l1, l2, l3, l4, l5⟩ :=
    attackLoop_spec i (w.game.players i).x (w.game.players i).y L1 hnd1 w
  have hcwp : (crashWorld i (w.game.players i).x (w.game.players i).y L1 k w).game.players =
      Function.update
        (attackLoop i (w.game.players i).x (w.game.players i).y L1 w).game.players k
        { w.game.players k with
          hp := atkHp (w.game.players k) (w.game.players i).x (w.game.players i).y } := rfl
  have hplayers : ∀ j : Fin 4, (handleCommand i "ATTACK" w).game.players j =
      if j = k then { w.game.players k with
        hp := atkHp (w.game.players k) (w.game.players i).x (w.game.players i).y }
      else (attackLoop i (w.game.players i).x (w.game.players i).y L1 w).game.players j := by
    intro j
    rw [hrw]
    show (crashWorld i (w.game.players i).x (w.game.players i).y L1 k w).game.players j = _
    rw [hcwp]
    by_cases hj : j = k
    · rw [hj, Function.update_same, if_pos rfl]
    · rw [Function.update_noteq hj, if_neg hj]
  refine ⟨?_, ?_, ?_, ?_, ?_, ?_, ?_⟩
  · intro j
    rw [hplayers j]
    by_cases hjk : j = k
    · rw [if_pos hjk, hjk]
      show atkHp (w.game.players k) (w.game.players i).x (w.game.players i).y = _
      rw [hhp_eq k]
      have hcg : ((k ≠ i ∧ (w.game.players k).active = true ∧
          adjD (w.game.players k).x (w.game.players k).y
            (w.game.players i).x (w.game.players i).y)) ↔
          (k ≤ k ∧ (k ≠ i ∧ (w.game.players k).active = true ∧
          adjD (w.game.players k).x (w.game.players k).y
            (w.game.players i).x (w.game.players i).y)) :=
        Iff.symm (and_iff_right (le_refl k))
      rw [if_congr hcg rfl rfl]
    · rw [if_neg hjk, l2 j]
      by_cases hjl : j ∈ L1
      · rw [if_pos hjl, atkPlayer_hp, hhp_eq j]
        have hjlt : j < k := (hmemL1 j).mp hjl
        have hcg : ((j ≠ i ∧ (w.game.players j).active = true ∧
            adjD (w.game.players j).x (w.game.players j).y
              (w.game.players i).x (w.game.players i).y)) ↔
            (j ≤ k ∧ (j ≠ i ∧ (w.game.players j).active = true ∧
            adjD (w.game.players j).x (w.game.players j).y
              (w.game.players i).x (w.game.players i).y)) :=
          Iff.symm (and_iff_right (le_of_lt hjlt))
        rw [if_congr hcg rfl rfl]
      · rw [if_neg hjl]
        have hnle : ¬(j ≤ k) := by
          intro hle
          rcases lt_or_eq_of_le hle with hlt | heq
          · exact hjl ((hmemL1 j).mpr hlt)
          · exact hjk heq
        rw [if_neg (fun hc => hnle hc.1)]
        omega
  · intro j
    rw [hplayers j]
    by_cases hjk : j = k
    · rw [if_pos hjk, hjk]
      show (w.game.players k).active = true ↔ _
      constructor
      · intro h
        exact ⟨h, fun hc => absurd hc.1 (lt_irrefl k)⟩
      · exact fun h => h.1
    · rw [if_neg hjk, l2 j]
      by_cases hjl : j ∈ L1
      · rw [if_pos hjl]
        have hjlt : j < k := (hmemL1 j).mp hjl
        by_cases hdj : atkDead (w.game.players j) (w.game.players i).x (w.game.players i).y
        · rw [atkPlayer_active_dead _ _ _ hdj]
          constructor
          · intro h
            exact Bool.noConfusion h
          · rintro ⟨ha, hn⟩
            exact absurd ⟨hjlt, (hdead_iff j).mp hdj⟩ hn
        · rw [atkPlayer_active_live _ _ _ hdj]
          constructor
          · intro h
            exact ⟨h, fun hc => hdj ((hdead_iff j).mpr hc.2)⟩
          · exact fun h => h.1
      · rw [if_neg hjl]
        constructor
        · intro h
          exact ⟨h, fun hc => hjl ((hmemL1 j).mpr hc.1)⟩
        · exact fun h => h.1
  · rw [hrw]
    show (attackLoop i (w.game.players i).x (w.game.players i).y L1 w).game.grid = _
    exact l1
  · have hflt : (([0, 1, 2, 3] : List (Fin 4)).filter (fun j => decide (j < k ∧ (j ≠ i ∧
        (w.game.players j).active = true ∧
        adjD (w.game.players j).x (w.game.players j).y
          (w.game.players i).x (w.game.players i).y ∧
        (w.game.players j).hp ≤ 10)))) =
        L1.filter (fun j => decide (atkDead (w.game.players j)
          (w.game.players i).x (w.game.players i).y)) :=
      (filter_lt_decomp L1 k L2 hdecomp hnd hmemL1 _).trans
        (List.filter_congr (fun j _ => decide_eq_decide.mpr (Iff.symm (hdead_iff j))))
    rw [hrw]
    show (attackLoop i (w.game.players i).x (w.game.players i).y L1 w).game.clientCount = _
    rw [l3, hflt]
  · intro j
    rw [hrw]
    show (attackLoop i (w.game.players i).x (w.game.players i).y L1 w).socks j = _
    rw [l4 j, if_congr (and_congr (hmemL1 j) (hdead_iff j)) rfl rfl]
  · have hflt2 : (([0, 1, 2, 3] : List (Fin 4)).filter (fun j => decide (j < k ∧ ((j ≠ i ∧
        (w.game.players j).active = true ∧
        adjD (w.game.players j).x (w.game.players j).y
          (w.game.players i).x (w.game.players i).y ∧
        (w.game.players j).hp ≤ 10) ∧
        w.socks j = some true)))) =
        L1.filter (fun j => decide (atkDead (w.game.players j)
          (w.game.players i).x (w.game.players i).y ∧ w.socks j = some true)) :=
      (filter_lt_decomp L1 k L2 hdecomp hnd hmemL1 _).trans
        (List.filter_congr (fun j _ => decide_eq_decide.mpr
          (and_congr_left fun _ => Iff.symm (hdead_iff j))))
    rw [hrw]
    show (attackLoop i (w.game.players i).x (w.game.players i).y L1 w).trace = _
    rw [l5, hflt2]
  · rw [hAE, hrw]

/-- A duel: the attacker beside the victim, the victim at 10 hp on a
broken channel. -/
def wDuelB : World :=
  demoWorld
    (fun i => if i = 0 then { x := 0, y := 0, hp := 100, active := true }
      else if i = 1 then { x := 0, y := 1, hp := 10, active := true }
      else { x := -1, y := -1, hp := 100, active := false })
    2 (fun i => if i = 0 then some true else if i = 1 then some false else none)

/-- The duel with the victim's registry slot already freed — the state a
failed broadcast to the victim leaves behind. -/
def wDuelN : World :=
  demoWorld
    (fun i => if i = 0 then { x := 0, y := 0, hp := 100, active := true }
      else if i = 1 then { x := 0, y := 1, hp := 10, active := true }
      else { x := -1, y := -1, hp := 100, active := false })
    2 (fun i => if i = 0 then some true else none)

/-- C4, the claim as stated, is false: with the victim's channel broken,
the victim at 10 hp is eliminated and released but never receives the
death notice (the send failure is swallowed); with the victim's registry
slot already freed, the hit lands but the elimination never happens —
the ATTACK aborts with the victim still active and counted, nothing is
broadcast, and the attacker's handler thread dies of the escaped
exception. -/
theorem claim_c4_counterexample :
    (((handleCommand 0 "ATTACK" wDuelB).game.players 1).active = false ∧
      (handleCommand 0 "ATTACK" wDuelB).socks 1 = none ∧
      (handleCommand 0 "ATTACK" wDuelB).game.clientCount = 1 ∧
      ¬(((1 : Fin 4), deathMsg 0) ∈ (handleCommand 0 "ATTACK" wDuelB).trace)) ∧
    (((handleCommand 0 "ATTACK" wDuelN).game.players 1).hp = 0 ∧
      ((handleCommand 0 "ATTACK" wDuelN).game.players 1).active = true ∧
      (handleCommand 0 "ATTACK" wDuelN).game.clientCount = 2 ∧
      (handleCommand 0 "ATTACK" wDuelN).trace = [] ∧
      (applyCmdE ParsedCmd.attack 0 wDuelN).tag = OutTag.died) := by decide

/-- C4 (amended): for every ATTACK in an invariant state, when no victim
dies while its registry slot is already freed: each other active player orthogonally adjacent to the attacker
loses exactly 10 hp and nobody else (the attacker included) loses any;
exactly the victims whose hp was 10 or less are eliminated — deactivated,
their channel freed, the occupant count dropping by the number of
victims — but the one death notice reaches only a victim whose channel
is still live (a failed delivery is swallowed, so a victim on a broken
channel is eliminated without ever receiving it), and the death notices
precede the state broadcast to the surviving live sessions.  When
instead some victim dies while its registry slot holds `None`, the
death-notice send raises an uncaught `AttributeError` at the first such
slot `k` and the ATTACK aborts there: slots before `k` are fully
processed, the player of slot `k` keeps only the hp subtraction and
stays active and counted, later slots are untouched, the grid is not
refreshed, nothing is broadcast, and the attacker's handler thread dies
with no cleanup. -/
theorem claim_c4_amended (w : World) (i : Fin 4) (hInv : Inv w.game) :
    ((∀ j : Fin 4, ¬((j ≠ i ∧ (w.game.players j).active = true ∧
        adjD (w.game.players j).x (w.game.players j).y
          (w.game.players i).x (w.game.players i).y ∧
        (w.game.players j).hp ≤ 10) ∧ w.socks j = none)) →
      ((∀ j : Fin 4,
        ((handleCommand i "ATTACK" w).game.players j).hp = (w.game.players j).hp -
          (if j ≠ i ∧ (w.game.players j).active = true ∧
              adjD (w.game.players j).x (w.game.players j).y
                (w.game.players i).x (w.game.players i).y then 10 else 0)) ∧
      ((handleCommand i "ATTACK" w).game.players i).hp = (w.game.players i).hp ∧
      (∀ j : Fin 4, (((handleCommand i "ATTACK" w).game.players j).active = true ↔
        ((w.game.players j).active = true ∧ (w.game.players j).hp -
          (if j ≠ i ∧ (w.game.players j).active = true ∧
              adjD (w.game.players j).x (w.game.players j).y
                (w.game.players i).x (w.game.players i).y then 10 else 0) > 0))) ∧
      (handleCommand i "ATTACK" w).game.clientCount = w.game.clientCount -
        ((([0, 1, 2, 3] : List (Fin 4)).filter (fun j => decide (j ≠ i ∧
          (w.game.players j).active = true ∧
          adjD (w.game.players j).x (w.game.players j).y
            (w.game.players i).x (w.game.players i).y ∧
          (w.game.players j).hp ≤ 10))).length : Int) ∧
      (∀ j : Fin 4, j ≠ i → (w.game.players j).active = true →
        adjD (w.game.players j).x (w.game.players j).y
          (w.game.players i).x (w.game.players i).y →
        (w.game.players j).hp ≤ 10 →
        ((handleCommand i "ATTACK" w).game.players j).active = false ∧
        (handleCommand i "ATTACK" w).socks j = none) ∧
      (handleCommand i "ATTACK" w).trace = w.trace ++
        (([0, 1, 2, 3] : List (Fin 4)).filter (fun j => decide ((j ≠ i ∧
          (w.game.players j).active = true ∧
          adjD (w.game.players j).x (w.game.players j).y
            (w.game.players i).x (w.game.players i).y ∧
          (w.game.players j).hp ≤ 10) ∧
          w.socks j = some true))).map (fun j => (j, deathMsg i)) ++
        (([0, 1, 2, 3] : List (Fin 4)).filter (fun j => decide (¬(j ≠ i ∧
          (w.game.players j).active = true ∧
          adjD (w.game.players j).x (w.game.players j).y
            (w.game.players i).x (w.game.players i).y ∧
          (w.game.players j).hp ≤ 10) ∧
          w.socks j = some true))).map
          (fun j => (j, buildStateString (handleCommand i "ATTACK" w).game)) ∧
      applyCmdE ParsedCmd.attack i w = Outcome.ok (handleCommand i "ATTACK" w))) ∧
    (∀ k : Fin 4, (k ≠ i ∧ (w.game.players k).active = true ∧
        adjD (w.game.players k).x (w.game.players k).y
          (w.game.players i).x (w.game.players i).y ∧
        (w.game.players k).hp ≤ 10) →
      w.socks k = none →
      (∀ j : Fin 4, j < k → ¬((j ≠ i ∧ (w.game.players j).active = true ∧
        adjD (w.game.players j).x (w.game.players j).y
          (w.game.players i).x (w.game.players i).y ∧
        (w.game.players j).hp ≤ 10) ∧ w.socks j = none)) →
      ((∀ j : Fin 4,
        ((handleCommand i "ATTACK" w).game.players j).hp = (w.game.players j).hp -
          (if j ≤ k ∧ (j ≠ i ∧ (w.game.players j).active = true ∧
              adjD (w.game.players j).x (w.game.players j).y
                (w.game.players i).x (w.game.players i).y) then 10 else 0)) ∧
      (∀ j : Fin 4, (((handleCommand i "ATTACK" w).game.players j).active = true ↔
        ((w.game.players j).active = true ∧ ¬(j < k ∧ (j ≠ i ∧
          (w.game.players j).active = true ∧
          adjD (w.game.players j).x (w.game.players j).y
            (w.game.players i).x (w.game.players i).y ∧
          (w.game.players j).hp ≤ 10))))) ∧
      (handleCommand i "ATTACK" w).game.grid = w.game.grid ∧
      (handleCommand i "ATTACK" w).game.clientCount = w.game.clientCount -
        ((([0, 1, 2, 3] : List (Fin 4)).filter (fun j => decide (j < k ∧ (j ≠ i ∧
          (w.game.players j).active = true ∧
          adjD (w.game.players j).x (w.game.players j).y
            (w.game.players i).x (w.game.players i).y ∧
          (w.game.players j).hp ≤ 10)))).length : Int) ∧
      (∀ j : Fin 4, (handleCommand i "ATTACK" w).socks j =
        if j < k ∧ (j ≠ i ∧ (w.game.players j).active = true ∧
          adjD (w.game.players j).x (w.game.players j).y
            (w.game.players i).x (w.game.players i).y ∧
          (w.game.players j).hp ≤ 10) then none else w.socks j) ∧
      (handleCommand i "ATTACK" w).trace = w.trace ++
        (([0, 1, 2, 3] : List (Fin 4)).filter (fun j => decide (j < k ∧ ((j ≠ i ∧
          (w.game.players j).active = true ∧
          adjD (w.game.players j).x (w.game.players j).y
            (w.game.players i).x (w.game.players i).y ∧
          (w.game.players j).hp ≤ 10) ∧
          w.socks j = some true)))).map (fun j => (j, deathMsg i)) ∧
      applyCmdE ParsedCmd.attack i w = Outcome.died (handleCommand i "ATTACK" w))) := by
  refine ⟨fun hA => ?_, fun k hk1 hk2 hfirst => ?_⟩
  · have hdead_iff := atkDead_spec_iff w i hInv
    have hhp_eq := atkHp_spec_eq w i hInv
    have hnc : ∀ j ∈ ([0, 1, 2, 3] : List (Fin 4)),
        ¬(atkDead (w.game.players j) (w.game.players i).x (w.game.players i).y ∧
          w.socks j = none) :=
      fun j _ hc => hA j ⟨(hdead_iff j).mp hc.1, hc.2⟩
    have hE := attackLoopE_ok i (w.game.players i).x (w.game.players i).y [0, 1, 2, 3]
      (by decide) w hnc
    have hAE : applyCmdE ParsedCmd.attack i w = Outcome.ok (broadcastState
        { attackLoop i (w.game.players i).x (w.game.players i).y [0, 1, 2, 3] w with
          game := refreshPlayerPositions
            (attackLoop i (w.game.players i).x (w.game.players i).y [0, 1, 2, 3] w).game }) := by
      show attackActionE i w = _
      simp only [attackActionE]
      rw [hE]
    have hrw : handleCommand i "ATTACK" w = broadcastState
        { attackLoop i (w.game.players i).x (w.game.players i).y [0, 1, 2, 3] w with
          game := refreshPlayerPositions
            (attackLoop i (w.game.players i).x (w.game.players i).y [0, 1, 2, 3] w).game } := by
      show applyCmd (dispatchSub "ATTACK") i w = _
      rw [show dispatchSub "ATTACK" = ParsedCmd.attack from by decide]
      show (applyCmdE ParsedCmd.attack i w).world = _
      rw [hAE]
      rfl
    obtain ⟨l1, l2, l3, l4, l5⟩ := attackLoop_spec i (w.game.players i).x (w.game.players i).y
      [0, 1, 2, 3] (by decide) w
    have hmem : ∀ j : Fin 4, j ∈ ([0, 1, 2, 3] : List (Fin 4)) := by
      intro j; fin_cases j <;> decide
    have hplayers : ∀ j : Fin 4, (handleCommand i "ATTACK" w).game.players j =
        atkPlayer (w.game.players j) (w.game.players i).x (w.game.players i).y := by
      intro j
      rw [hrw, broadcast_game]
      dsimp only
      rw [refresh_players, l2 j, if_pos (hmem j)]
    have hsocks : ∀ j : Fin 4,
        atkDead (w.game.players j) (w.game.players i).x (w.game.players i).y →
        (handleCommand i "ATTACK" w).socks j = none := by
      intro j hdj
      have hcond : j ∈ ([0, 1, 2, 3] : List (Fin 4)) ∧
          atkDead (w.game.players j) (w.game.players i).x (w.game.players i).y :=
        ⟨hmem j, hdj⟩
      rw [hrw, broadcast_socks]
      dsimp only
      rw [l4 j, if_pos hcond]
      simp
    refine ⟨?_, ?_, ?_, ?_, ?_, ?_, ?_⟩
    · intro j
      rw [hplayers j, atkPlayer_hp, hhp_eq j]
    · rw [hplayers i, atkPlayer_hp, hhp_eq i, if_neg (by simp)]
      omega
    · intro j
      rw [hplayers j, ← hhp_eq j]
      by_cases hdj : atkDead (w.game.players j) (w.game.players i).x (w.game.players i).y
      · rw [atkPlayer_active_dead _ _ _ hdj]
        constructor
        · intro h
          exact Bool.noConfusion h
        · rintro ⟨h1, h2⟩
          have h3 := hdj.2.2
          omega
      · rw [atkPlayer_active_live _ _ _ hdj]
        constructor
        · intro h1
          refine ⟨h1, ?_⟩
          by_contra hle
          push_neg at hle
          exact hdj ⟨h1, (hInv.1 j h1).2.1, by omega⟩
        · exact fun h => h.1
    · have hcfilt : ([0, 1, 2, 3] : List (Fin 4)).filter (fun j =>
          decide (atkDead (w.game.players j) (w.game.players i).x (w.game.players i).y)) =
          ([0, 1, 2, 3] : List (Fin 4)).filter (fun j => decide (j ≠ i ∧
            (w.game.players j).active = true ∧
            adjD (w.game.players j).x (w.game.players j).y
              (w.game.players i).x (w.game.players i).y ∧
            (w.game.players j).hp ≤ 10)) :=
        List.filter_congr (fun j _ => decide_eq_decide.mpr (hdead_iff j))
      rw [hrw, broadcast_game]
      dsimp only
      rw [refresh_clientCount, l3, hcfilt]
    · intro j hji hactj hadj hhp10
      have hdj : atkDead (w.game.players j) (w.game.players i).x (w.game.players i).y :=
        (hdead_iff j).mpr ⟨hji, hactj, hadj, hhp10⟩
      exact ⟨by rw [hplayers j]; exact atkPlayer_active_dead _ _ _ hdj, hsocks j hdj⟩
    · have hdfilt : ([0, 1, 2, 3] : List (Fin 4)).filter (fun j =>
          decide (atkDead (w.game.players j) (w.game.players i).x (w.game.players i).y ∧
            w.socks j = some true)) =
          ([0, 1, 2, 3] : List (Fin 4)).filter (fun j => decide ((j ≠ i ∧
            (w.game.players j).active = true ∧
            adjD (w.game.players j).x (w.game.players j).y
              (w.game.players i).x (w.game.players i).y ∧
            (w.game.players j).hp ≤ 10) ∧
            w.socks j = some true)) :=
        List.filter_congr (fun j _ => decide_eq_decide.mpr
          (and_congr_left fun _ => hdead_iff j))
      have hbe : broadcastEntries
          (attackLoop i (w.game.players i).x (w.game.players i).y [0, 1, 2, 3] w).socks
          (buildStateString (refreshPlayerPositions
            (attackLoop i (w.game.players i).x (w.game.players i).y [0, 1, 2, 3] w).game)) =
          (([0, 1, 2, 3] : List (Fin 4)).filter (fun j => decide (¬(j ≠ i ∧
            (w.game.players j).active = true ∧
            adjD (w.game.players j).x (w.game.players j).y
              (w.game.players i).x (w.game.players i).y ∧
            (w.game.players j).hp ≤ 10) ∧
            w.socks j = some true))).map
            (fun j => (j, buildStateString (refreshPlayerPositions
              (attackLoop i (w.game.players i).x (w.game.players i).y [0, 1, 2, 3] w).game))) := by
        unfold broadcastEntries liveSlots
        congr 1
        apply List.filter_congr
        intro j _
        apply decide_eq_decide.mpr
        rw [l4 j]
        by_cases hdj : atkDead (w.game.players j) (w.game.players i).x (w.game.players i).y
        · rw [if_pos ⟨hmem j, hdj⟩]
          constructor
          · intro h
            exact Option.noConfusion h
          · rintro ⟨hnd, _⟩
            exact absurd ((hdead_iff j).mp hdj) hnd
        · rw [if_neg (fun hc => hdj hc.2)]
          constructor
          · intro h
            exact ⟨fun hd => hdj ((hdead_iff j).mpr hd), h⟩
          · exact fun h => h.2
      rw [hrw, broadcast_trace, broadcast_game]
      dsimp only
      rw [l5, hdfilt, hbe, List.append_assoc]
    · rw [hAE, hrw]
  · have hkA : atkDead (w.game.players k) (w.game.players i).x (w.game.players i).y :=
      (atkDead_spec_iff w i hInv k).mpr hk1
    have hokLt : ∀ j : Fin 4, j < k →
        ¬(atkDead (w.game.players j) (w.game.players i).x (w.game.players i).y ∧
          w.socks j = none) :=
      fun j hj hc => hfirst j hj ⟨(atkDead_spec_iff w i hInv j).mp hc.1, hc.2⟩
    fin_cases k
    · exact attackCrash_spec w i hInv [] 0 [1, 2, 3] rfl (by decide) (by decide) hkA hk2 hokLt
    · exact attackCrash_spec w i hInv [0] 1 [2, 3] rfl (by decide) (by decide) hkA hk2 hokLt
    · exact attackCrash_spec w i hInv [0, 1] 2 [3] rfl (by decide) (by decide) hkA hk2 hokLt
    · exact attackCrash_spec w i hInv [0, 1, 2] 3 [] rfl (by decide) (by decide) hkA hk2 hokLt

theorem claim_c4_amended_witness :
    ((handleCommand 0 "ATTACK" wDuel).game.players 1).hp = 0 ∧
    ((handleCommand 0 "ATTACK" wDuel).game.players 1).active = false ∧
    (handleCommand 0 "ATTACK" wDuel).socks 1 = none ∧
    ((1 : Fin 4), deathMsg 0) ∈ (handleCommand 0 "ATTACK" wDuel).trace ∧
    ((handleCommand 0 "ATTACK" wDuel).game.players 0).hp = 100 ∧
    (handleCommand 0 "ATTACK" wDuel).game.clientCount = 1 := by
  obtain ⟨hA, hB⟩ := claim_c4_amended wDuel 0 (by decide)
  obtain ⟨hhp, hatk, hiff, hcount, hvict, htr, hok⟩ := hA (by decide)
  have hv := hvict 1 (by decide) (by decide) (by decide) (by decide)
  refine ⟨?_, hv.1, hv.2, ?_, ?_, ?_⟩
  · rw [hhp 1]
    decide
  · rw [htr]
    decide
  · rw [hatk]
    decide
  · rw [hcount]
    decide

theorem claim_c9_witness :
    (0 ≤ (wNine.game.players 0).x ∧ (wNine.game.players 0).x < 5 ∧
      0 ≤ (wNine.game.players 0).y ∧ (wNine.game.players 0).y < 5) ∧
    gridGet wNine.game.grid (wNine.game.players 0).x (wNine.game.players 0).y ≠ '#' ∧
    (∀ j : Fin 4, j ≠ 0 → (wNine.game.players j).active = true →
      ¬((wNine.game.players j).x = (wNine.game.players 0).x ∧
        (wNine.game.players j).y = (wNine.game.players 0).y)) :=
  claim_c9 [0, 1] [((0 : Fin 4), false, Dir.right)] 0 (by decide)

end BattleServer
